import Mathlib

/-!
# Gridly exporter

A shallow embedding of `Source/GridlyEditor/Private/GridlyExporter.cpp`: the two
overloads of `FGridlyExporter::ConvertToJson`, one turning polyglot text entries into
records of cells, the other writing a window of a data table's rows through a JSON
writer.

Conventions of the embedding.

* `FString` is `String`; the engine operations the exporter calls on it
  (`operator==`, `IsEmpty`, `Find`, `Replace`, `FPaths::GetBaseFilename`) are
  functions on the character list.
* `TMap<FString, V>` is an association list in insertion order, searched with the
  engine's `FString` comparison.
* `size_t` is `Nat` below `2 ^ 64`; the one sum the code computes on it is reduced
  modulo `2 ^ 64`.
* A failed engine `check` (array index out of range, key missing from a map) is the
  result `none`.
-/

namespace Gridly

/-! ## Engine strings -/

/-- The engine's `ESearchCase::Type`. -/
inductive ESearchCase
  | CaseSensitive
  | IgnoreCase
deriving DecidableEq, Repr

/-- The engine's `INDEX_NONE`. -/
def INDEX_NONE : Int := -1

/-- The width of `size_t` on the editor's targets. -/
def SIZE_T_BITS : Nat := 64

namespace FString

/-- Comparison of two characters under a search case; `IgnoreCase` folds the
ASCII letters. -/
def CharEq : ESearchCase → Char → Char → Bool
  | .CaseSensitive, a, b => a == b
  | .IgnoreCase, a, b => a.toLower == b.toLower

/-- Does the text `S` begin with `Sub` under the search case? -/
def StartsWith (SearchCase : ESearchCase) : List Char → List Char → Bool
  | [], _ => true
  | _ :: _, [] => false
  | p :: ps, c :: cs => CharEq SearchCase p c && StartsWith SearchCase ps cs

/-- Scan of `FCString::Strstr` / `Stristr`: the first position at or after `i`
where `Sub` starts, or `INDEX_NONE`. -/
def FindFrom (SearchCase : ESearchCase) (Sub : List Char) : List Char → Nat → Int
  | [], i => if Sub.isEmpty then (i : Int) else INDEX_NONE
  | c :: cs, i =>
    if StartsWith SearchCase Sub (c :: cs) then (i : Int)
    else FindFrom SearchCase Sub cs (i + 1)

/-- `FString::Find(SubStr, SearchCase)` searching from the start. The engine's
default for `SearchCase` is `ESearchCase::IgnoreCase`. -/
def Find (S Sub : String) (SearchCase : ESearchCase) : Int :=
  FindFrom SearchCase Sub.data S.data 0

/-- Loop of `FString::Replace`: `Skip` counts the characters of a matched `From`
still to be stepped over. -/
def ReplaceGo (SearchCase : ESearchCase) (From To : List Char) : Nat → List Char → List Char
  | _, [] => []
  | Skip + 1, _ :: cs => ReplaceGo SearchCase From To Skip cs
  | 0, c :: cs =>
    if StartsWith SearchCase From (c :: cs) then
      To ++ ReplaceGo SearchCase From To (From.length - 1) cs
    else c :: ReplaceGo SearchCase From To 0 cs

/-- `FString::Replace(From, To, SearchCase)`: every occurrence of `From`, found left
to right without overlap, becomes `To`; an empty `From` leaves the text as it is. -/
def Replace (S From To : String) (SearchCase : ESearchCase) : String :=
  if From.data.isEmpty then S else String.mk (ReplaceGo SearchCase From.data To.data 0 S.data)

/-- `FString::operator==`: the engine compares two `FString`s ignoring case. -/
def Equals (A B : String) : Bool :=
  A.data.map Char.toLower == B.data.map Char.toLower

/-- `FString::IsEmpty`. -/
def IsEmpty (S : String) : Bool := S.data.isEmpty

/-- `FString::FindLastCharByPredicate`, as a scan that remembers the last hit. -/
def FindLastFrom (Pred : Char → Bool) : List Char → Nat → Int → Int
  | [], _, Last => Last
  | c :: cs, i, Last => FindLastFrom Pred cs (i + 1) (if Pred c then (i : Int) else Last)

/-- `FString::FindLastCharByPredicate`: the last index whose character satisfies
`Pred`, or `INDEX_NONE`. -/
def FindLastCharByPredicate (Pred : Char → Bool) (S : List Char) : Int :=
  FindLastFrom Pred S 0 INDEX_NONE

/-- `FString::Mid(Start, Count)`. -/
def Mid (S : List Char) (Start Count : Nat) : List Char := (S.drop Start).take Count

end FString

namespace FPaths

/-- The engine's path separator test. -/
def IsSlashOrBackslash (c : Char) : Bool := c == '/' || c == '\\'

/-- `FPaths::GetCleanFilename`: what follows the last separator. -/
def GetCleanFilename (InPath : List Char) : List Char :=
  let EndPos := FString.FindLastCharByPredicate (fun c => !IsSlashOrBackslash c) InPath + 1
  let StartPos := FString.FindLastCharByPredicate IsSlashOrBackslash InPath + 1
  if StartPos ≤ EndPos then FString.Mid InPath StartPos.toNat (EndPos - StartPos).toNat else []

/-- `FPaths::GetBaseFilename(InPath)` with its default `bRemovePath = true`: the
file name without directory and without extension. -/
def GetBaseFilename (InPath : String) : String :=
  let Wk := GetCleanFilename InPath.data
  let ExtPos := FString.FindLastCharByPredicate (fun c => c == '.') Wk
  if ExtPos ≠ INDEX_NONE then String.mk (Wk.take ExtPos.toNat) else String.mk Wk

end FPaths

/-! ## Engine containers and JSON objects -/

/-- `TMap<FString, V>`: pairs in insertion order. -/
abbrev TMap (V : Type) := List (String × V)

namespace TMap

/-- `TMap::Find`: the value stored under a key, keys compared as `FString`s. -/
def Find {V : Type} (M : TMap V) (Key : String) : Option V :=
  (List.find? (fun p => FString.Equals p.1 Key) M).map Prod.snd

/-- `TMap::Add`: a new pair, or the replacement of the pair stored under the key. -/
def Add {V : Type} : TMap V → String → V → TMap V
  | [], Key, Value => [(Key, Value)]
  | (k, v) :: Rest, Key, Value =>
    if FString.Equals k Key then (Key, Value) :: Rest else (k, v) :: Add Rest Key Value

end TMap

/-- Values the exporter stores in a cell object: `FJsonValueString` and
`FJsonValueNumber`. -/
inductive FJsonScalar
  | String (Value : String)
  | Number (Value : Int)
deriving DecidableEq, Repr

/-- The `FJsonObject` of one cell (`CellJsonObject`). -/
abbrev FJsonCell := TMap FJsonScalar

/-- Values the exporter stores in a record object: strings and the array of cell
objects. -/
inductive FJsonValue
  | String (Value : String)
  | Array (Cells : List FJsonCell)
deriving DecidableEq, Repr

/-- The `FJsonObject` of one record (`RowJsonObject`). -/
abbrev FJsonObject := TMap FJsonValue

/-! ## Configuration and input of the localization converter -/

/-- Modelled from the spec: the data type of a mapped column (`enum{String, Number}`),
declared in GridlyGameSettings.h, which is not among the sources. -/
inductive EGridlyColumnDataType
  | String
  | Number
deriving DecidableEq, Repr

/-- Modelled from the spec: an entry of the column mapping, declared in
GridlyGameSettings.h; the field names are those the exporter reads. -/
structure FGridlyColumnInfo where
  Name : String
  DataType : EGridlyColumnDataType
deriving DecidableEq, Repr

/-- Modelled from the spec: the export configuration (`UGridlyGameSettings`, declared
in GridlyGameSettings.h); the fields are those the exporter reads. -/
structure UGridlyGameSettings where
  bUseCombinedNamespaceId : Bool
  bAlsoExportNamespaceColumn : Bool
  NamespaceColumnId : String
  SourceLanguageColumnIdPrefix : String
  TargetLanguageColumnIdPrefix : String
  MetadataMapping : TMap FGridlyColumnInfo
  bExportTextTypeAsPath : Bool
deriving Repr

/-- Modelled from the spec: the Culture Mapper (`FGridlyCultureConverter`, declared in
GridlyCultureConverter.h). `ConvertToGridly` is `none` when the culture has no
backend culture. -/
structure FGridlyCultureConverter where
  ConvertToGridly : String → Option String
  GetTargetCultures : List String

/-- The engine's `FPolyglotTextData`, as far as the exporter reads it. -/
structure FPolyglotTextData where
  Key : String
  Namespace : String
  NativeCulture : String
  NativeString : String
  LocalizedStrings : TMap String
deriving Repr

/-- `FPolyglotTextData::GetLocalizedString`: the translation stored for a culture. -/
def FPolyglotTextData.GetLocalizedString (Data : FPolyglotTextData) (Culture : String) :
    Option String :=
  TMap.Find Data.LocalizedStrings Culture

/-- The engine's `FLocMetadataValue`; the exporter reads only its string form. -/
structure FLocMetadataValue where
  ToString : String
deriving DecidableEq, Repr

/-- The engine's `FManifestContext`; `InfoMetadataObj` holds the `Values` of the
metadata object when the pointer is valid. -/
structure FManifestContext where
  Key : String
  SourceLocation : String
  InfoMetadataObj : Option (TMap FLocMetadataValue)
deriving Repr

/-- The engine's `FManifestEntry`. -/
structure FManifestEntry where
  Contexts : List FManifestContext
deriving Repr

/-- `FManifestEntry::FindContextByKey`: the first context stored under the key
(`FLocKey`s compare case-sensitively). -/
def FManifestEntry.FindContextByKey (Entry : FManifestEntry) (Key : String) :
    Option FManifestContext :=
  Entry.Contexts.find? (fun c => c.Key == Key)

/-- The engine's `FLocTextHelper`, as far as the exporter calls it. -/
structure FLocTextHelper where
  FindSourceText : String → String → Option FManifestEntry

/-! ## The localization converter (lines 11-179) -/

/-- The two locals a record is assembled in: `RowJsonObject` and `CellsJsonArray`. -/
structure FRowBuilder where
  RowJsonObject : FJsonObject
  CellsJsonArray : List FJsonCell
deriving DecidableEq, Repr

/-- `FJsonObject::SetStringField` on a record object. -/
def SetStringField (Object : FJsonObject) (FieldName Value : String) : FJsonObject :=
  TMap.Add Object FieldName (FJsonValue.String Value)

/-- `FJsonObject::SetArrayField` on a record object. -/
def SetArrayField (Object : FJsonObject) (FieldName : String) (Cells : List FJsonCell) :
    FJsonObject :=
  TMap.Add Object FieldName (FJsonValue.Array Cells)

/-- `FJsonObject::GetStringField`-style read of a record object: the string stored
under a field, if any. -/
def GetStringField (Object : FJsonObject) (FieldName : String) : Option String :=
  match TMap.Find Object FieldName with
  | some (FJsonValue.String Value) => some Value
  | _ => none

/-- The cells stored under a record's `cells` field. -/
def GetCells (Object : FJsonObject) : List FJsonCell :=
  match TMap.Find Object "cells" with
  | some (FJsonValue.Array Cells) => Cells
  | _ => []

/-- A cell object with its `columnId` and `value` fields set, in that order. -/
def MakeCell (ColumnId : String) (Value : FJsonScalar) : FJsonCell :=
  TMap.Add (TMap.Add [] "columnId" (FJsonScalar.String ColumnId)) "value" Value

/-- `CellsJsonArray.Add`. -/
def FRowBuilder.AddCell (B : FRowBuilder) (Cell : FJsonCell) : FRowBuilder :=
  { B with CellsJsonArray := B.CellsJsonArray ++ [Cell] }

/-- Line 18: `bExportNamespace`. -/
def bExportNamespace (GameSettings : UGridlyGameSettings) : Bool :=
  !GameSettings.bUseCombinedNamespaceId || GameSettings.bAlsoExportNamespaceColumn

/-- Line 19: `bUsePathAsNamespace`, the `FString` comparison of the namespace column
id with `"path"`. -/
def bUsePathAsNamespace (GameSettings : UGridlyGameSettings) : Bool :=
  FString.Equals GameSettings.NamespaceColumnId "path"

/-- Lines 31-36: the manifest context of an entry, looked up through the optional
helper. -/
def FindItemContext (LocTextHelperPtr : Option FLocTextHelper) (Namespace Key : String) :
    Option FManifestContext :=
  match LocTextHelperPtr with
  | none => none
  | some Helper =>
    match Helper.FindSourceText Namespace Key with
    | none => none
    | some ManifestEntry => ManifestEntry.FindContextByKey Key

/-- Lines 40-47: set the record id. -/
def SetRecordId (GameSettings : UGridlyGameSettings) (Namespace Key : String)
    (B : FRowBuilder) : FRowBuilder :=
  if GameSettings.bUseCombinedNamespaceId then
    { B with RowJsonObject := SetStringField B.RowJsonObject "id" (Namespace ++ "," ++ Key) }
  else
    { B with RowJsonObject := SetStringField B.RowJsonObject "id" Key }

/-- Lines 51-64: set the namespace, as the record's path or as a cell. -/
def SetNamespacePath (GameSettings : UGridlyGameSettings) (Namespace : String)
    (B : FRowBuilder) : FRowBuilder :=
  if bExportNamespace GameSettings then
    if bUsePathAsNamespace GameSettings then
      { B with RowJsonObject := SetStringField B.RowJsonObject "path" Namespace }
    else if !FString.IsEmpty GameSettings.NamespaceColumnId then
      B.AddCell (MakeCell GameSettings.NamespaceColumnId (FJsonScalar.String Namespace))
    else B
  else B

/-- Lines 69-79: the source language cell. -/
def AddSourceLanguage (GameSettings : UGridlyGameSettings)
    (CultureConverter : FGridlyCultureConverter) (Data : FPolyglotTextData)
    (B : FRowBuilder) : FRowBuilder :=
  match CultureConverter.ConvertToGridly Data.NativeCulture with
  | some GridlyCulture =>
    B.AddCell (MakeCell (GameSettings.SourceLanguageColumnIdPrefix ++ GridlyCulture)
      (FJsonScalar.String Data.NativeString))
  | none => B

/-- Lines 96-109: the path derived from a source location. The probe is
`SourceLocation.Find(TEXT("- line"))`, which runs with the engine's default search
case. -/
def DerivePath (SourceLocation : String) : String :=
  let LineStrIdx := FString.Find SourceLocation "- line" ESearchCase.IgnoreCase
  if LineStrIdx > INDEX_NONE then "" ++ "Code"
  else ("" ++ "StringTables/") ++ FPaths.GetBaseFilename SourceLocation

/-- Lines 84-113: the source location cell and the derived path. -/
def AddSourceLocation (GameSettings : UGridlyGameSettings)
    (ItemContext : Option FManifestContext) (B : FRowBuilder) : FRowBuilder :=
  match TMap.Find GameSettings.MetadataMapping "SourceLocation", ItemContext with
  | some GridlyColumnId, some Context =>
    let B1 := B.AddCell (MakeCell GridlyColumnId.Name (FJsonScalar.String
      (FString.Replace Context.SourceLocation " - line " ":" ESearchCase.CaseSensitive)))
    if !bUsePathAsNamespace GameSettings && GameSettings.bExportTextTypeAsPath then
      { B1 with RowJsonObject :=
          SetStringField B1.RowJsonObject "path" (DerivePath Context.SourceLocation) }
    else B1
  | _, _ => B

/-- Lines 119-141: one pass of the metadata loop. `Atoi` is the engine's
`FCString::Atoi`. -/
def AddInfoMetadataPair (GameSettings : UGridlyGameSettings) (Atoi : String → Int)
    (B : FRowBuilder) (InfoMetaDataPair : String × FLocMetadataValue) : FRowBuilder :=
  match TMap.Find GameSettings.MetadataMapping InfoMetaDataPair.1 with
  | some GridlyColumnInfo =>
    let CellJsonObject : FJsonCell :=
      TMap.Add [] "columnId" (FJsonScalar.String GridlyColumnInfo.Name)
    let CellJsonObject : FJsonCell :=
      match GridlyColumnInfo.DataType with
      | EGridlyColumnDataType.String =>
        TMap.Add CellJsonObject "value" (FJsonScalar.String InfoMetaDataPair.2.ToString)
      | EGridlyColumnDataType.Number =>
        TMap.Add CellJsonObject "value" (FJsonScalar.Number (Atoi InfoMetaDataPair.2.ToString))
    B.AddCell CellJsonObject
  | none => B

/-- Lines 115-143: the metadata cells. -/
def AddInfoMetadata (GameSettings : UGridlyGameSettings) (Atoi : String → Int)
    (ItemContext : Option FManifestContext) (B : FRowBuilder) : FRowBuilder :=
  match ItemContext with
  | some Context =>
    match Context.InfoMetadataObj with
    | some Values => Values.foldl (AddInfoMetadataPair GameSettings Atoi) B
    | none => B
  | none => B

/-- Lines 149-160: one pass of the target culture loop. -/
def AddTargetTranslation (GameSettings : UGridlyGameSettings)
    (CultureConverter : FGridlyCultureConverter) (Data : FPolyglotTextData)
    (B : FRowBuilder) (CultureName : String) : FRowBuilder :=
  if !FString.Equals CultureName Data.NativeCulture then
    match Data.GetLocalizedString CultureName with
    | some LocalizedString =>
      match CultureConverter.ConvertToGridly CultureName with
      | some GridlyCulture =>
        B.AddCell (MakeCell (GameSettings.TargetLanguageColumnIdPrefix ++ GridlyCulture)
          (FJsonScalar.String LocalizedString))
      | none => B
    | none => B
  else B

/-- Lines 145-162: the target language cells. -/
def AddTargetTranslations (GameSettings : UGridlyGameSettings)
    (CultureConverter : FGridlyCultureConverter) (bIncludeTargetTranslations : Bool)
    (Data : FPolyglotTextData) (B : FRowBuilder) : FRowBuilder :=
  if bIncludeTargetTranslations then
    CultureConverter.GetTargetCultures.foldl
      (AddTargetTranslation GameSettings CultureConverter Data) B
  else B

/-- Lines 25-167 up to the last assignment: the builder of one entry after every
section has run. -/
def BuildRow (GameSettings : UGridlyGameSettings) (CultureConverter : FGridlyCultureConverter)
    (Atoi : String → Int) (bIncludeTargetTranslations : Bool)
    (LocTextHelperPtr : Option FLocTextHelper) (Data : FPolyglotTextData) : FRowBuilder :=
  let B : FRowBuilder := { RowJsonObject := [], CellsJsonArray := [] }
  let ItemContext := FindItemContext LocTextHelperPtr Data.Namespace Data.Key
  let B := SetRecordId GameSettings Data.Namespace Data.Key B
  let B := SetNamespacePath GameSettings Data.Namespace B
  let B := AddSourceLanguage GameSettings CultureConverter Data B
  let B := AddSourceLocation GameSettings ItemContext B
  let B := AddInfoMetadata GameSettings Atoi ItemContext B
  AddTargetTranslations GameSettings CultureConverter bIncludeTargetTranslations Data B

/-- Lines 25-169: the record of one entry, the body of the loop over the entries. -/
def ConvertEntry (GameSettings : UGridlyGameSettings) (CultureConverter : FGridlyCultureConverter)
    (Atoi : String → Int) (bIncludeTargetTranslations : Bool)
    (LocTextHelperPtr : Option FLocTextHelper) (Data : FPolyglotTextData) : FJsonObject :=
  let B := BuildRow GameSettings CultureConverter Atoi bIncludeTargetTranslations
    LocTextHelperPtr Data
  SetArrayField B.RowJsonObject "cells" B.CellsJsonArray

/-- Lines 21-170: the `Rows` array, one record appended per entry. -/
def ConvertRows (GameSettings : UGridlyGameSettings) (CultureConverter : FGridlyCultureConverter)
    (Atoi : String → Int) (bIncludeTargetTranslations : Bool)
    (LocTextHelperPtr : Option FLocTextHelper) (PolyglotTextDatas : List FPolyglotTextData) :
    List FJsonObject :=
  PolyglotTextDatas.foldl
    (fun Rows Data => Rows ++ [ConvertEntry GameSettings CultureConverter Atoi
      bIncludeTargetTranslations LocTextHelperPtr Data]) []

/-- `FGridlyExporter::ConvertToJson(PolyglotTextDatas, bIncludeTargetTranslations,
LocTextHelperPtr, OutJsonString)`: the returned flag and the text written to
`OutJsonString`. `Serialize` is the engine's `FJsonSerializer::Serialize` into a string
writer: whether it succeeded and what it wrote. -/
def FGridlyExporter.ConvertToJson (GameSettings : UGridlyGameSettings)
    (CultureConverter : FGridlyCultureConverter) (Atoi : String → Int)
    (Serialize : List FJsonObject → Bool × String)
    (PolyglotTextDatas : List FPolyglotTextData) (bIncludeTargetTranslations : Bool)
    (LocTextHelperPtr : Option FLocTextHelper) : Bool × String :=
  let Rows := ConvertRows GameSettings CultureConverter Atoi bIncludeTargetTranslations
    LocTextHelperPtr PolyglotTextDatas
  let Written := Serialize Rows
  if Written.1 then (true, Written.2) else (false, Written.2)

/-! ## The table converter (lines 181-306) -/

/-- The engine's `FName`; the exporter reads its string form. -/
structure FName where
  ToString : String
deriving DecidableEq, Repr

/-- A value of the engine's `double`, kept as its bit pattern. -/
structure FDouble where
  Bits : Nat
deriving DecidableEq, Repr

/-- The numeric property classes of the engine. -/
inductive ENumericType
  | Int8
  | Int16
  | Int32
  | Int64
  | UInt8
  | UInt16
  | UInt32
  | UInt64
  | Float
  | Double
deriving DecidableEq, Repr

/-- `FNumericProperty::IsInteger`. -/
def ENumericType.IsInteger : ENumericType → Bool
  | .Float => false
  | .Double => false
  | _ => true

/-- The property classes `CastField` tells apart in the exporter. `Numeric` carries
the numeric class and the answer of `IsEnum()`; `Other` is every class left. -/
inductive EPropertyClass
  | Enum
  | Numeric (NumericType : ENumericType) (bIsEnum : Bool)
  | Bool
  | Array
  | Set
  | Map
  | Struct
  | Other
deriving DecidableEq, Repr

/-- The engine's `FProperty`, as far as the exporter reads it: the export name
(`DataTableUtils::GetPropertyExportName`), `ArrayDim` and the class. -/
structure FProperty where
  ExportName : String
  ArrayDim : Int
  Class : EPropertyClass
deriving DecidableEq, Repr

/-- The memory of one row (`uint8* RowData`), read through a property:
`DataTableUtils::GetPropertyValueAsString`, the integer stored in an integer field,
`GetFloatingPointPropertyValue` and `FBoolProperty::GetPropertyValue`. -/
structure FRowData where
  ValueAsString : FProperty → String
  StoredInteger : FProperty → Int
  FloatingPoint : FProperty → FDouble
  BoolValue : FProperty → Bool

/-- `FNumericProperty::GetSignedIntPropertyValue`: the stored integer converted to
`int64`. -/
def GetSignedIntPropertyValue (Stored : Int) : Int :=
  (Stored + 2 ^ 63) % 2 ^ 64 - 2 ^ 63

/-- The engine's `UGridlyDataTable`, as far as the exporter reads it: the row struct
as the sequence its field iterator yields, and the row map in enumeration order. -/
structure UGridlyDataTable where
  RowStruct : Option (List FProperty)
  RowMap : List (FName × FRowData)

/-- Entries of the writer's stack. -/
inductive EJson
  | Array
  | Object
deriving DecidableEq, Repr

/-- The engine's `EJsonToken`, as far as the writer records it. -/
inductive EJsonToken
  | None
  | CurlyOpen
  | CurlyClose
  | SquareOpen
  | SquareClose
  | String
  | Number
  | True
  | False
deriving DecidableEq, Repr

/-- A value handed to `WriteValue`. -/
inductive FJsonWritten
  | String (Value : String)
  | Integer (Value : Int)
  | Double (Value : FDouble)
  | Boolean (Value : Bool)
deriving DecidableEq, Repr

/-- What one call of the writer puts into the output. -/
inductive FJsonEvent
  | ArrayStart (Identifier : Option String)
  | ArrayEnd
  | ObjectStart
  | ObjectEnd
  | Value (Identifier : String) (Written : FJsonWritten)
deriving DecidableEq, Repr

/-- The engine's `TJsonWriter`: what it has written so far, its stack of open
containers (innermost first) and the last token. -/
structure TJsonWriter where
  Output : List FJsonEvent
  Stack : List EJson
  PreviousTokenWritten : EJsonToken
deriving DecidableEq, Repr

namespace TJsonWriter

/-- `TJsonWriterFactory::Create`. -/
def Create : TJsonWriter :=
  { Output := [], Stack := [], PreviousTokenWritten := EJsonToken.None }

/-- `WriteArrayStart()`. -/
def WriteArrayStart (W : TJsonWriter) : TJsonWriter :=
  { Output := W.Output ++ [FJsonEvent.ArrayStart none], Stack := EJson.Array :: W.Stack,
    PreviousTokenWritten := EJsonToken.SquareOpen }

/-- `WriteArrayStart(Identifier)`. -/
def WriteArrayStartId (W : TJsonWriter) (Identifier : String) : TJsonWriter :=
  { Output := W.Output ++ [FJsonEvent.ArrayStart (some Identifier)],
    Stack := EJson.Array :: W.Stack, PreviousTokenWritten := EJsonToken.SquareOpen }

/-- `WriteArrayEnd()`. -/
def WriteArrayEnd (W : TJsonWriter) : TJsonWriter :=
  { Output := W.Output ++ [FJsonEvent.ArrayEnd], Stack := W.Stack.tail,
    PreviousTokenWritten := EJsonToken.SquareClose }

/-- `WriteObjectStart()`. -/
def WriteObjectStart (W : TJsonWriter) : TJsonWriter :=
  { Output := W.Output ++ [FJsonEvent.ObjectStart], Stack := EJson.Object :: W.Stack,
    PreviousTokenWritten := EJsonToken.CurlyOpen }

/-- `WriteObjectEnd()`. -/
def WriteObjectEnd (W : TJsonWriter) : TJsonWriter :=
  { Output := W.Output ++ [FJsonEvent.ObjectEnd], Stack := W.Stack.tail,
    PreviousTokenWritten := EJsonToken.CurlyClose }

/-- The token `WriteValue` records for a value. -/
def TokenOf : FJsonWritten → EJsonToken
  | .String _ => EJsonToken.String
  | .Integer _ => EJsonToken.Number
  | .Double _ => EJsonToken.Number
  | .Boolean true => EJsonToken.True
  | .Boolean false => EJsonToken.False

/-- `WriteValue(Identifier, Value)`. -/
def WriteValue (W : TJsonWriter) (Identifier : String) (Value : FJsonWritten) : TJsonWriter :=
  { Output := W.Output ++ [FJsonEvent.Value Identifier Value], Stack := W.Stack,
    PreviousTokenWritten := TokenOf Value }

/-- `Close()`: the document is complete when nothing is open and the last token
closed a container (or nothing was written). -/
def Close (W : TJsonWriter) : Bool :=
  (W.PreviousTokenWritten == EJsonToken.None
    || W.PreviousTokenWritten == EJsonToken.CurlyClose
    || W.PreviousTokenWritten == EJsonToken.SquareClose)
  && W.Stack.isEmpty

end TJsonWriter

/-- Lines 235-286: the `value` of a cell, chosen by the class of the property. -/
def WriteCellValue (BaseProp : FProperty) (RowData : FRowData) (W : TJsonWriter) :
    TJsonWriter :=
  match BaseProp.Class with
  | .Enum => W.WriteValue "value" (FJsonWritten.String (RowData.ValueAsString BaseProp))
  | .Numeric NumericType bIsEnum =>
    if bIsEnum then
      W.WriteValue "value" (FJsonWritten.String (RowData.ValueAsString BaseProp))
    else if NumericType.IsInteger then
      W.WriteValue "value"
        (FJsonWritten.Integer (GetSignedIntPropertyValue (RowData.StoredInteger BaseProp)))
    else
      W.WriteValue "value" (FJsonWritten.Double (RowData.FloatingPoint BaseProp))
  | .Bool => W.WriteValue "value" (FJsonWritten.Boolean (RowData.BoolValue BaseProp))
  | .Array => W
  | .Set => W
  | .Map => W
  | .Struct => W
  | .Other => W.WriteValue "value" (FJsonWritten.String (RowData.ValueAsString BaseProp))

/-- Lines 220-289: the body of the loop over the properties of the row struct. -/
def WriteCell (RowData : FRowData) (W : TJsonWriter) (BaseProp : FProperty) : TJsonWriter :=
  if BaseProp.ArrayDim == 1 then
    let W := W.WriteObjectStart
    let W := W.WriteValue "columnId" (FJsonWritten.String BaseProp.ExportName)
    let W := WriteCellValue BaseProp RowData W
    W.WriteObjectEnd
  else W

/-- Lines 210-294: one record, for the row `RowName` with memory `RowData`. -/
def WriteRow (RowStruct : List FProperty) (RowName : FName) (RowData : FRowData)
    (W : TJsonWriter) : TJsonWriter :=
  let W := W.WriteObjectStart
  let W := W.WriteValue "id" (FJsonWritten.String RowName.ToString)
  let W := W.WriteArrayStartId "cells"
  let W := RowStruct.foldl (WriteCell RowData) W
  let W := W.WriteArrayEnd
  W.WriteObjectEnd

/-- Lines 205-295: the loop `for (size_t i = StartIndex; i < EndIndex; i++)`, run
from `i` with `Fuel` passes allowed. `none` is a failed check (`Keys[i]` out of range,
`RowMap[RowName]` missing) or no fuel left. -/
def ExportRows (RowStruct : List FProperty) (RowMap : List (FName × FRowData))
    (Keys : List FName) (EndIndex : Nat) : Nat → Nat → TJsonWriter → Option TJsonWriter
  | 0, _, _ => none
  | Fuel + 1, i, W =>
    if i < EndIndex then
      match Keys[i]? with
      | none => none
      | some RowName =>
        match RowMap.lookup RowName with
        | none => none
        | some RowData =>
          ExportRows RowStruct RowMap Keys EndIndex Fuel (i + 1)
            (WriteRow RowStruct RowName RowData W)
    else some W

/-- What a call of the table converter leaves behind: the returned flag and what
was written to `OutJsonString`. -/
structure FTableResult where
  bSuccess : Bool
  Output : List FJsonEvent
deriving DecidableEq, Repr

/-- `FGridlyExporter::ConvertToJson(GridlyDataTable, OutJsonString, StartIndex,
MaxSize)`. `StartIndex + MaxSize` is a `size_t` sum. -/
def FGridlyExporter.ConvertToJsonTable (GridlyDataTable : UGridlyDataTable)
    (StartIndex MaxSize : Nat) : Option FTableResult :=
  match GridlyDataTable.RowStruct with
  | none => some { bSuccess := false, Output := [] }
  | some RowStruct =>
    let JsonWriter := TJsonWriter.Create
    let JsonWriter := JsonWriter.WriteArrayStart
    let Keys := GridlyDataTable.RowMap.map Prod.fst
    if StartIndex < Keys.length then
      let EndIndex := min ((StartIndex + MaxSize) % 2 ^ SIZE_T_BITS) Keys.length
      match ExportRows RowStruct GridlyDataTable.RowMap Keys EndIndex (Keys.length + 1)
          StartIndex JsonWriter with
      | none => none
      | some JsonWriter =>
        let JsonWriter := JsonWriter.WriteArrayEnd
        if JsonWriter.Close then some { bSuccess := true, Output := JsonWriter.Output }
        else some { bSuccess := false, Output := JsonWriter.Output }
    else some { bSuccess := false, Output := JsonWriter.Output }

/-! ## What the table converter writes, piece by piece -/

/-- The events the property loop writes for one property of one row. -/
def CellEvents (RowData : FRowData) (BaseProp : FProperty) : List FJsonEvent :=
  (WriteCell RowData TJsonWriter.Create BaseProp).Output

/-- The events of one record. -/
def RowEvents (RowStruct : List FProperty) (RowName : FName) (RowData : FRowData) :
    List FJsonEvent :=
  (WriteRow RowStruct RowName RowData TJsonWriter.Create).Output

/-- The events of the record of the row stored under `RowName`. -/
def RecordOf (RowStruct : List FProperty) (RowMap : List (FName × FRowData))
    (RowName : FName) : List FJsonEvent :=
  match RowMap.lookup RowName with
  | some RowData => RowEvents RowStruct RowName RowData
  | none => []

/-! ## What the localization converter adds, section by section -/

/-- The builder a record starts from (lines 25-26). -/
def FRowBuilder.Empty : FRowBuilder := { RowJsonObject := [], CellsJsonArray := [] }

/-- The namespace cells of a record: the cells the namespace section (lines 51-64)
adds. -/
def NamespaceCells (GameSettings : UGridlyGameSettings) (Namespace : String) :
    List FJsonCell :=
  (SetNamespacePath GameSettings Namespace FRowBuilder.Empty).CellsJsonArray

/-- The path the namespace section (lines 51-64) gives a record, if it gives one. -/
def NamespacePath (GameSettings : UGridlyGameSettings) (Namespace : String) :
    Option String :=
  GetStringField (SetNamespacePath GameSettings Namespace FRowBuilder.Empty).RowJsonObject
    "path"

/-- The source language cells of a record: the cells lines 69-79 add. -/
def SourceLanguageCells (GameSettings : UGridlyGameSettings)
    (CultureConverter : FGridlyCultureConverter) (Data : FPolyglotTextData) :
    List FJsonCell :=
  (AddSourceLanguage GameSettings CultureConverter Data FRowBuilder.Empty).CellsJsonArray

/-- The source location cells of a record: the cells lines 84-113 add. -/
def SourceLocationCells (GameSettings : UGridlyGameSettings)
    (ItemContext : Option FManifestContext) : List FJsonCell :=
  (AddSourceLocation GameSettings ItemContext FRowBuilder.Empty).CellsJsonArray

/-- The metadata cells of a record: the cells lines 115-143 add. -/
def InfoMetadataCells (GameSettings : UGridlyGameSettings) (Atoi : String → Int)
    (ItemContext : Option FManifestContext) : List FJsonCell :=
  (AddInfoMetadata GameSettings Atoi ItemContext FRowBuilder.Empty).CellsJsonArray

/-- The target language cells of a record: the cells lines 145-162 add. -/
def TargetLanguageCells (GameSettings : UGridlyGameSettings)
    (CultureConverter : FGridlyCultureConverter) (bIncludeTargetTranslations : Bool)
    (Data : FPolyglotTextData) : List FJsonCell :=
  (AddTargetTranslations GameSettings CultureConverter bIncludeTargetTranslations Data
    FRowBuilder.Empty).CellsJsonArray

/-! ## Engine and serializer parts the later claims read -/

namespace FCString

/-- The C locale's `isspace`. -/
def IsSpace (c : Char) : Bool :=
  c == ' ' || c == '\t' || c == '\n' || c == '\x0b' || c == '\x0c' || c == '\r'

/-- The value of the leading decimal digits of a text, continuing from `Acc`. -/
def ParseDigits : List Char → Nat → Nat
  | [], Acc => Acc
  | c :: cs, Acc => if c.isDigit then ParseDigits cs (Acc * 10 + (c.toNat - 48)) else Acc

/-- The C runtime's `strtol` on a value that does not fit its result type `long`, 64 bits
wide: the nearest bound of `long`. -/
def SaturateLong (Value : Int) : Int :=
  max (-(2 ^ 63)) (min Value (2 ^ 63 - 1))

/-- Conversion of a `long` to `int32`: the low 32 bits, read in two's complement. -/
def ToInt32 (Value : Int) : Int :=
  (Value + 2 ^ 31) % 2 ^ 32 - 2 ^ 31

/-- The engine's `FCString::Atoi`, whose result type is `int32` (it is not among the
sources; its generic implementation returns the C runtime's `strtol` in base 10):
leading white space is skipped, an optional sign is read, then the decimal digits up to
the first other character; a text without such digits gives 0. `strtol` saturates at the
bounds of `long`, and the return as `int32` keeps the low 32 bits, so the text
`2147483648` gives -2147483648. -/
def Atoi (S : String) : Int :=
  ToInt32 (SaturateLong
    (match S.data.dropWhile IsSpace with
      | '-' :: Digits => -((ParseDigits Digits 0 : Nat) : Int)
      | '+' :: Digits => ((ParseDigits Digits 0 : Nat) : Int)
      | Digits => ((ParseDigits Digits 0 : Nat) : Int)))

end FCString

namespace Serializer

/-- Modelled from the spec: a JSON string, quoted, with the quote and the backslash
escaped (part of the Document Serializer, section 4.4). -/
def WriteString (S : String) : String :=
  "\"" ++ String.join (S.data.map (fun c =>
    if c == '"' then "\\\"" else if c == '\\' then "\\\\" else String.singleton c)) ++ "\""

/-- Modelled from the spec: a cell's scalar; numbers are written as native JSON
numbers. -/
def WriteScalar : FJsonScalar → String
  | FJsonScalar.String Value => WriteString Value
  | FJsonScalar.Number Value => toString Value

/-- Modelled from the spec: a cell object `{"columnId": ..., "value": ...}`. -/
def WriteCellObject (Cell : FJsonCell) : String :=
  "\x7b" ++ String.intercalate ","
    (Cell.map (fun Field => WriteString Field.1 ++ ":" ++ WriteScalar Field.2)) ++ "\x7d"

/-- Modelled from the spec: a field value of a record, a string or the array of
cells. -/
def WriteValue : FJsonValue → String
  | FJsonValue.String Value => WriteString Value
  | FJsonValue.Array Cells => "[" ++ String.intercalate "," (Cells.map WriteCellObject) ++ "]"

/-- Modelled from the spec: a record object with its `id`, optional `path` and
`cells`. -/
def WriteObject (Record : FJsonObject) : String :=
  "\x7b" ++ String.intercalate ","
    (Record.map (fun Field => WriteString Field.1 ++ ":" ++ WriteValue Field.2)) ++ "\x7d"

/-- Modelled from the spec: the Document Serializer of section 4.4,
`serialize(records) -> string`, standing for the engine's `FJsonSerializer::Serialize`
into a string writer, which is not among the sources. It produces the JSON array of
the record objects, `[]` for no record; writing into a string does not fail. -/
def Serialize (Rows : List FJsonObject) : Bool × String :=
  (true, "[" ++ String.intercalate "," (Rows.map WriteObject) ++ "]")

end Serializer

/-- The integers a field of an integer property class can store. -/
def ENumericType.InRange : ENumericType → Int → Bool
  | .Int8, v => decide (-(2 ^ 7) ≤ v ∧ v < 2 ^ 7)
  | .Int16, v => decide (-(2 ^ 15) ≤ v ∧ v < 2 ^ 15)
  | .Int32, v => decide (-(2 ^ 31) ≤ v ∧ v < 2 ^ 31)
  | .Int64, v => decide (-(2 ^ 63) ≤ v ∧ v < 2 ^ 63)
  | .UInt8, v => decide (0 ≤ v ∧ v < 2 ^ 8)
  | .UInt16, v => decide (0 ≤ v ∧ v < 2 ^ 16)
  | .UInt32, v => decide (0 ≤ v ∧ v < 2 ^ 32)
  | .UInt64, v => decide (0 ≤ v ∧ v < 2 ^ 64)
  | .Float, _ => false
  | .Double, _ => false

/-- The aggregate property classes: array, set, map and struct. -/
def IsAggregateClass : EPropertyClass → Bool
  | EPropertyClass.Array => true
  | EPropertyClass.Set => true
  | EPropertyClass.Map => true
  | EPropertyClass.Struct => true
  | _ => false

/-- The number of records in what the table converter wrote: the objects opened
directly inside the outer array. -/
def CountRecords : List FJsonEvent → Nat → Nat
  | [], _ => 0
  | FJsonEvent.ArrayStart _ :: Rest, Depth => CountRecords Rest (Depth + 1)
  | FJsonEvent.ArrayEnd :: Rest, Depth => CountRecords Rest (Depth - 1)
  | FJsonEvent.ObjectStart :: Rest, Depth =>
    (if Depth = 1 then 1 else 0) + CountRecords Rest (Depth + 1)
  | FJsonEvent.ObjectEnd :: Rest, Depth => CountRecords Rest (Depth - 1)
  | FJsonEvent.Value _ _ :: Rest, Depth => CountRecords Rest Depth

/-- The path the source location section (lines 84-113) gives a record, if it gives
one. -/
def SourceLocationPath (GameSettings : UGridlyGameSettings)
    (ItemContext : Option FManifestContext) : Option String :=
  GetStringField (AddSourceLocation GameSettings ItemContext FRowBuilder.Empty).RowJsonObject
    "path"

/-! ## Concrete inputs -/

namespace Example

/-- The row struct of the example tables: one `int32` field. -/
def ScoreStruct : List FProperty :=
  [{ ExportName := "Score", ArrayDim := 1, Class := EPropertyClass.Numeric ENumericType.Int32 false }]

/-- A row whose integer fields hold `Score`. -/
def ScoreRow (Score : Int) : FRowData :=
  { ValueAsString := fun _ => "", StoredInteger := fun _ => Score,
    FloatingPoint := fun _ => { Bits := 0 }, BoolValue := fun _ => false }

/-- Ten rows, named `Row_0` to `Row_9` in enumeration order. -/
def TenRows : List (FName × FRowData) :=
  [({ ToString := "Row_0" }, ScoreRow 0), ({ ToString := "Row_1" }, ScoreRow 1),
   ({ ToString := "Row_2" }, ScoreRow 2), ({ ToString := "Row_3" }, ScoreRow 3),
   ({ ToString := "Row_4" }, ScoreRow 4), ({ ToString := "Row_5" }, ScoreRow 5),
   ({ ToString := "Row_6" }, ScoreRow 6), ({ ToString := "Row_7" }, ScoreRow 7),
   ({ ToString := "Row_8" }, ScoreRow 8), ({ ToString := "Row_9" }, ScoreRow 9)]

/-- A table of ten rows with a row type. -/
def TenRowTable : UGridlyDataTable := { RowStruct := some ScoreStruct, RowMap := TenRows }

/-- A table with a row type and no rows. -/
def EmptyTypedTable : UGridlyDataTable := { RowStruct := some ScoreStruct, RowMap := [] }

/-- The events of the record of `Row_n` in `TenRowTable`. -/
def ScoreRecord (Name : String) (Score : Int) : List FJsonEvent :=
  [FJsonEvent.ObjectStart, FJsonEvent.Value "id" (FJsonWritten.String Name),
   FJsonEvent.ArrayStart (some "cells"), FJsonEvent.ObjectStart,
   FJsonEvent.Value "columnId" (FJsonWritten.String "Score"),
   FJsonEvent.Value "value" (FJsonWritten.Integer Score), FJsonEvent.ObjectEnd,
   FJsonEvent.ArrayEnd, FJsonEvent.ObjectEnd]

/-- A table of one row whose row struct has one `TArray` field. -/
def TagsTable : UGridlyDataTable :=
  { RowStruct := some [{ ExportName := "Tags", ArrayDim := 1, Class := EPropertyClass.Array }],
    RowMap := [({ ToString := "Row_0" }, ScoreRow 0)] }

/-- Settings of the examples: prefixes `src_` and `tg_`, and a column mapping with
the one key `SourceLocation`. -/
def Settings (bCombined bAlsoNamespace : Bool) (NamespaceColumnId : String)
    (bTextTypeAsPath : Bool) : UGridlyGameSettings :=
  { bUseCombinedNamespaceId := bCombined,
    bAlsoExportNamespaceColumn := bAlsoNamespace,
    NamespaceColumnId := NamespaceColumnId,
    SourceLanguageColumnIdPrefix := "src_",
    TargetLanguageColumnIdPrefix := "tg_",
    MetadataMapping :=
      [("SourceLocation", { Name := "source_location", DataType := EGridlyColumnDataType.String })],
    bExportTextTypeAsPath := bTextTypeAsPath }

/-- A culture converter that maps every culture to itself, with target cultures
`en, fr, de`. -/
def Cultures : FGridlyCultureConverter :=
  { ConvertToGridly := fun Culture => some Culture, GetTargetCultures := ["en", "fr", "de"] }

/-- A culture converter that maps no culture. -/
def NoCultures : FGridlyCultureConverter :=
  { ConvertToGridly := fun _ => none, GetTargetCultures := ["en", "fr", "de"] }

/-- An `Atoi` for the examples, which hold no numeric metadata. -/
def AtoiZero : String → Int := fun _ => 0

/-- An entry authored in `en` with a translation for `fr` only. -/
def Greeting : FPolyglotTextData :=
  { Key := "Greeting", Namespace := "Menu", NativeCulture := "en", NativeString := "Hello",
    LocalizedStrings := [("fr", "Bonjour")] }

/-- A helper that knows one context for every entry, at the given source location. -/
def Helper (SourceLocation : String) : FLocTextHelper :=
  { FindSourceText := fun _ Key =>
      some { Contexts := [{ Key := Key, SourceLocation := SourceLocation,
                            InfoMetadataObj := none }] } }

/-- A culture converter that maps every culture but `en` to itself, with target
cultures `en, fr, de`. -/
def CulturesWithoutNative : FGridlyCultureConverter :=
  { ConvertToGridly := fun Culture => if Culture = "en" then none else some Culture,
    GetTargetCultures := ["en", "fr", "de"] }

/-- A `uint64` field. -/
def BigProperty : FProperty :=
  { ExportName := "Big", ArrayDim := 1,
    Class := EPropertyClass.Numeric ENumericType.UInt64 false }

/-- A table of one row whose `uint64` field stores `2 ^ 63`. -/
def BigTable : UGridlyDataTable :=
  { RowStruct := some [BigProperty],
    RowMap := [({ ToString := "Row_0" }, ScoreRow (2 ^ 63))] }

/-- A row with a label, an integer, a floating point value and a flag. -/
def MixedRow : FRowData :=
  { ValueAsString := fun _ => "Label", StoredInteger := fun _ => -5,
    FloatingPoint := fun _ => { Bits := 4609434218613702656 }, BoolValue := fun _ => true }

/-- An enum property. -/
def KindProperty : FProperty :=
  { ExportName := "Kind", ArrayDim := 1, Class := EPropertyClass.Enum }

/-- A byte property flagged as enum. -/
def ByteProperty : FProperty :=
  { ExportName := "Byte", ArrayDim := 1,
    Class := EPropertyClass.Numeric ENumericType.UInt8 true }

/-- An `int32` property. -/
def ScoreProperty : FProperty :=
  { ExportName := "Score", ArrayDim := 1,
    Class := EPropertyClass.Numeric ENumericType.Int32 false }

/-- A `double` property. -/
def RatioProperty : FProperty :=
  { ExportName := "Ratio", ArrayDim := 1,
    Class := EPropertyClass.Numeric ENumericType.Double false }

/-- A bool property. -/
def FlagProperty : FProperty :=
  { ExportName := "Flag", ArrayDim := 1, Class := EPropertyClass.Bool }

/-- A property of a class the exporter does not single out, such as a string. -/
def TitleProperty : FProperty :=
  { ExportName := "Title", ArrayDim := 1, Class := EPropertyClass.Other }

end Example

/-! ## The writer: every call appends and keeps the stack balanced -/

theorem WriteCellValue_Output (BaseProp : FProperty) (RowData : FRowData) (W : TJsonWriter) :
    (WriteCellValue BaseProp RowData W).Output
      = W.Output ++ (WriteCellValue BaseProp RowData TJsonWriter.Create).Output := by
  unfold WriteCellValue
  cases BaseProp.Class <;> simp [TJsonWriter.WriteValue, TJsonWriter.Create]
  split_ifs <;> simp

theorem WriteCellValue_Stack (BaseProp : FProperty) (RowData : FRowData) (W : TJsonWriter) :
    (WriteCellValue BaseProp RowData W).Stack = W.Stack := by
  unfold WriteCellValue
  cases BaseProp.Class <;> simp [TJsonWriter.WriteValue]
  split_ifs <;> simp

theorem WriteCell_Output (RowData : FRowData) (W : TJsonWriter) (BaseProp : FProperty) :
    (WriteCell RowData W BaseProp).Output = W.Output ++ CellEvents RowData BaseProp := by
  unfold CellEvents WriteCell
  by_cases h : BaseProp.ArrayDim = 1
  · simp only [h, beq_self_eq_true, if_true, TJsonWriter.WriteObjectEnd]
    rw [WriteCellValue_Output, WriteCellValue_Output BaseProp RowData
      ((TJsonWriter.Create.WriteObjectStart).WriteValue _ _)]
    simp [TJsonWriter.WriteValue, TJsonWriter.WriteObjectStart, TJsonWriter.Create]
  · simp [h, TJsonWriter.Create]

theorem WriteCell_Stack (RowData : FRowData) (W : TJsonWriter) (BaseProp : FProperty) :
    (WriteCell RowData W BaseProp).Stack = W.Stack := by
  unfold WriteCell
  by_cases h : BaseProp.ArrayDim = 1
  · simp [h, TJsonWriter.WriteObjectEnd, WriteCellValue_Stack, TJsonWriter.WriteValue,
      TJsonWriter.WriteObjectStart]
  · simp [h]

theorem WriteCells_Output (RowData : FRowData) (RowStruct : List FProperty) (W : TJsonWriter) :
    (RowStruct.foldl (WriteCell RowData) W).Output
      = W.Output ++ RowStruct.flatMap (CellEvents RowData) := by
  induction RowStruct generalizing W with
  | nil => simp
  | cons P Rest ih => simp [List.foldl_cons, ih, WriteCell_Output, List.append_assoc]

theorem WriteCells_Stack (RowData : FRowData) (RowStruct : List FProperty) (W : TJsonWriter) :
    (RowStruct.foldl (WriteCell RowData) W).Stack = W.Stack := by
  induction RowStruct generalizing W with
  | nil => simp
  | cons P Rest ih => simp [List.foldl_cons, ih, WriteCell_Stack]

/-- The events of one record, spelled out. -/
theorem RowEvents_eq (RowStruct : List FProperty) (RowName : FName) (RowData : FRowData) :
    RowEvents RowStruct RowName RowData
      = [FJsonEvent.ObjectStart, FJsonEvent.Value "id" (FJsonWritten.String RowName.ToString),
          FJsonEvent.ArrayStart (some "cells")]
        ++ RowStruct.flatMap (CellEvents RowData)
        ++ [FJsonEvent.ArrayEnd, FJsonEvent.ObjectEnd] := by
  simp [RowEvents, WriteRow, TJsonWriter.WriteObjectEnd, TJsonWriter.WriteArrayEnd,
    WriteCells_Output, TJsonWriter.WriteArrayStartId, TJsonWriter.WriteValue,
    TJsonWriter.WriteObjectStart, TJsonWriter.Create]

theorem WriteRow_Output (RowStruct : List FProperty) (RowName : FName) (RowData : FRowData)
    (W : TJsonWriter) :
    (WriteRow RowStruct RowName RowData W).Output
      = W.Output ++ RowEvents RowStruct RowName RowData := by
  rw [RowEvents_eq]
  simp [WriteRow, TJsonWriter.WriteObjectEnd, TJsonWriter.WriteArrayEnd,
    WriteCells_Output, TJsonWriter.WriteArrayStartId, TJsonWriter.WriteValue,
    TJsonWriter.WriteObjectStart]

theorem WriteRow_Stack (RowStruct : List FProperty) (RowName : FName) (RowData : FRowData)
    (W : TJsonWriter) :
    (WriteRow RowStruct RowName RowData W).Stack = W.Stack := by
  simp [WriteRow, TJsonWriter.WriteObjectEnd, TJsonWriter.WriteArrayEnd,
    WriteCells_Stack, TJsonWriter.WriteArrayStartId, TJsonWriter.WriteValue,
    TJsonWriter.WriteObjectStart]

/-! ## The row loop -/

theorem lookup_of_mem_keys (RowMap : List (FName × FRowData)) (RowName : FName)
    (h : RowName ∈ RowMap.map Prod.fst) : ∃ RowData, RowMap.lookup RowName = some RowData := by
  induction RowMap with
  | nil => simp at h
  | cons kv Rest ih =>
    obtain ⟨k, v⟩ := kv
    by_cases hk : RowName = k
    · exact ⟨v, by simp [List.lookup, hk]⟩
    · have hmem : RowName ∈ Rest.map Prod.fst := by
        simpa [hk] using h
      have hne : (RowName == k) = false := by simpa using hk
      obtain ⟨d, hd⟩ := ih hmem
      exact ⟨d, by simp [List.lookup, hne, hd]⟩

/-- The row loop, started at `i` with enough fuel, ends; it appends the records of the
keys at indexes `i` up to `EndIndex` in order and leaves the stack as it found it. -/
theorem ExportRows_spec (RowStruct : List FProperty) (RowMap : List (FName × FRowData))
    (EndIndex : Nat) (hEnd : EndIndex ≤ (RowMap.map Prod.fst).length) :
    ∀ (Fuel i : Nat) (W : TJsonWriter), EndIndex - i < Fuel →
      ∃ W', ExportRows RowStruct RowMap (RowMap.map Prod.fst) EndIndex Fuel i W = some W'
        ∧ W'.Output = W.Output
            ++ (((RowMap.map Prod.fst).drop i).take (EndIndex - i)).flatMap
                (RecordOf RowStruct RowMap)
        ∧ W'.Stack = W.Stack := by
  intro Fuel
  induction Fuel with
  | zero => intro i W h; omega
  | succ Fuel ih =>
    intro i W hFuel
    by_cases hi : i < EndIndex
    · have hlen : i < (RowMap.map Prod.fst).length := by omega
      have hmem : (RowMap.map Prod.fst)[i] ∈ RowMap.map Prod.fst := List.getElem_mem hlen
      obtain ⟨RowData, hData⟩ := lookup_of_mem_keys RowMap _ hmem
      obtain ⟨W', hRun, hOut, hStack⟩ :=
        ih (i + 1) (WriteRow RowStruct (RowMap.map Prod.fst)[i] RowData W) (by omega)
      refine ⟨W', ?_, ?_, ?_⟩
      · simp only [ExportRows, hi, if_true, List.getElem?_eq_getElem hlen, hData]
        exact hRun
      · rw [hOut, WriteRow_Output, List.drop_eq_getElem_cons hlen]
        have hsub : EndIndex - i = (EndIndex - (i + 1)) + 1 := by omega
        rw [hsub, List.take_succ_cons, List.flatMap_cons]
        simp only [RecordOf, hData, List.append_assoc]
      · rw [hStack, WriteRow_Stack]
    · refine ⟨W, ?_, ?_, rfl⟩
      · simp [ExportRows, hi]
      · have hz : EndIndex - i = 0 := by omega
        simp [hz]

/-- Inside the table: the call succeeds and writes the array of the records of the
keys in the window that the wrapped sum gives. -/
theorem ConvertToJsonTable_inside (GridlyDataTable : UGridlyDataTable)
    (RowStruct : List FProperty) (StartIndex MaxSize : Nat)
    (hStruct : GridlyDataTable.RowStruct = some RowStruct)
    (hStart : StartIndex < GridlyDataTable.RowMap.length) :
    FGridlyExporter.ConvertToJsonTable GridlyDataTable StartIndex MaxSize
      = some
          { bSuccess := true,
            Output := [FJsonEvent.ArrayStart none]
              ++ (((GridlyDataTable.RowMap.map Prod.fst).drop StartIndex).take
                    (min ((StartIndex + MaxSize) % 2 ^ SIZE_T_BITS)
                      GridlyDataTable.RowMap.length - StartIndex)).flatMap
                  (RecordOf RowStruct GridlyDataTable.RowMap)
              ++ [FJsonEvent.ArrayEnd] } := by
  have hEnd : min ((StartIndex + MaxSize) % 2 ^ SIZE_T_BITS)
      (GridlyDataTable.RowMap.map Prod.fst).length
      ≤ (GridlyDataTable.RowMap.map Prod.fst).length := Nat.min_le_right _ _
  obtain ⟨W', hRun, hOut, hStack⟩ :=
    ExportRows_spec RowStruct GridlyDataTable.RowMap _ hEnd
      ((GridlyDataTable.RowMap.map Prod.fst).length + 1) StartIndex
      TJsonWriter.Create.WriteArrayStart (by omega)
  have hStart' : StartIndex < (GridlyDataTable.RowMap.map Prod.fst).length := by
    simpa using hStart
  unfold FGridlyExporter.ConvertToJsonTable
  simp only [hStruct, hStart', if_true, hRun]
  have hClose : (W'.WriteArrayEnd).Close = true := by
    simp [TJsonWriter.Close, TJsonWriter.WriteArrayEnd, hStack, TJsonWriter.WriteArrayStart,
      TJsonWriter.Create]
  simp only [hClose, if_true]
  simp [TJsonWriter.WriteArrayEnd, hOut, TJsonWriter.WriteArrayStart, TJsonWriter.Create]

/-- At or past the end of the table: the call returns false after writing the array
start only. -/
theorem ConvertToJsonTable_outside (GridlyDataTable : UGridlyDataTable)
    (RowStruct : List FProperty) (StartIndex MaxSize : Nat)
    (hStruct : GridlyDataTable.RowStruct = some RowStruct)
    (hStart : GridlyDataTable.RowMap.length ≤ StartIndex) :
    FGridlyExporter.ConvertToJsonTable GridlyDataTable StartIndex MaxSize
      = some { bSuccess := false, Output := [FJsonEvent.ArrayStart none] } := by
  have hStart' : ¬ StartIndex < GridlyDataTable.RowMap.length := by omega
  unfold FGridlyExporter.ConvertToJsonTable
  simp [hStruct, hStart', TJsonWriter.WriteArrayStart, TJsonWriter.Create]

/-- An aggregate property with `ArrayDim == 1` still gets its object and its
`columnId`; only the `value` is left out. -/
theorem CellEvents_aggregate (RowData : FRowData) (BaseProp : FProperty)
    (hDim : BaseProp.ArrayDim = 1)
    (hClass : BaseProp.Class = EPropertyClass.Array ∨ BaseProp.Class = EPropertyClass.Set
      ∨ BaseProp.Class = EPropertyClass.Map ∨ BaseProp.Class = EPropertyClass.Struct) :
    CellEvents RowData BaseProp
      = [FJsonEvent.ObjectStart,
          FJsonEvent.Value "columnId" (FJsonWritten.String BaseProp.ExportName),
          FJsonEvent.ObjectEnd] := by
  rcases hClass with h | h | h | h <;>
    simp [CellEvents, WriteCell, WriteCellValue, hDim, h, TJsonWriter.WriteObjectEnd,
      TJsonWriter.WriteValue, TJsonWriter.WriteObjectStart, TJsonWriter.Create]

/-- A property with `ArrayDim != 1` writes nothing. -/
theorem CellEvents_fixed_array (RowData : FRowData) (BaseProp : FProperty)
    (hDim : BaseProp.ArrayDim ≠ 1) : CellEvents RowData BaseProp = [] := by
  simp [CellEvents, WriteCell, hDim, TJsonWriter.Create]

/-! ## Claims on the table converter -/

/-- C1: on the ten-row table the window `StartIndex = 5, MaxSize = 3` exports the
records of rows 5, 6, 7 and the window `StartIndex = 8, MaxSize = 5` those of rows 8, 9,
in enumeration order, each with its row name as id. With `StartIndex = 1` and
`MaxSize = 2 ^ 64 - 1` the `size_t` sum wraps to 0: the call succeeds and exports no
record, although rows 1 to 9 lie in `[1, min(1 + MaxSize, 10))`. -/
theorem C1_window_sum_wraps :
    FGridlyExporter.ConvertToJsonTable Example.TenRowTable 5 3
      = some { bSuccess := true,
               Output := [FJsonEvent.ArrayStart none] ++ Example.ScoreRecord "Row_5" 5
                 ++ Example.ScoreRecord "Row_6" 6 ++ Example.ScoreRecord "Row_7" 7
                 ++ [FJsonEvent.ArrayEnd] }
    ∧ FGridlyExporter.ConvertToJsonTable Example.TenRowTable 8 5
      = some { bSuccess := true,
               Output := [FJsonEvent.ArrayStart none] ++ Example.ScoreRecord "Row_8" 8
                 ++ Example.ScoreRecord "Row_9" 9 ++ [FJsonEvent.ArrayEnd] }
    ∧ (1 < 2 ^ SIZE_T_BITS ∧ 2 ^ 64 - 1 < 2 ^ SIZE_T_BITS)
    ∧ min (1 + (2 ^ 64 - 1)) Example.TenRowTable.RowMap.length = 10
    ∧ FGridlyExporter.ConvertToJsonTable Example.TenRowTable 1 (2 ^ 64 - 1)
      = some { bSuccess := true,
               Output := [FJsonEvent.ArrayStart none, FJsonEvent.ArrayEnd] } := by
  decide

/-- C2, as stated, fails: on the ten-row table with `StartIndex = 10` the call returns
false and has written only the array start, not a successful empty array. -/
theorem C2_counterexample :
    Example.TenRowTable.RowStruct = some Example.ScoreStruct
    ∧ Example.TenRowTable.RowMap.length ≤ 10
    ∧ FGridlyExporter.ConvertToJsonTable Example.TenRowTable 10 5
      = some { bSuccess := false, Output := [FJsonEvent.ArrayStart none] }
    ∧ FGridlyExporter.ConvertToJsonTable Example.TenRowTable 10 5
      ≠ some { bSuccess := true,
               Output := [FJsonEvent.ArrayStart none, FJsonEvent.ArrayEnd] } := by
  decide

/-- C2, amended: for every table with a row type and every `StartIndex` at or past the
row count, the call ends, returns false and writes no record: the output holds the
array start and nothing else. -/
theorem C2_start_past_rows_returns_false (GridlyDataTable : UGridlyDataTable)
    (RowStruct : List FProperty) (StartIndex MaxSize : Nat)
    (hStruct : GridlyDataTable.RowStruct = some RowStruct)
    (hStart : GridlyDataTable.RowMap.length ≤ StartIndex) :
    FGridlyExporter.ConvertToJsonTable GridlyDataTable StartIndex MaxSize
      = some { bSuccess := false, Output := [FJsonEvent.ArrayStart none] } :=
  ConvertToJsonTable_outside GridlyDataTable RowStruct StartIndex MaxSize hStruct hStart

/-- C2, amended, at a concrete input: the ten-row table with `StartIndex = 12`. -/
theorem C2_start_past_rows_witness :
    FGridlyExporter.ConvertToJsonTable Example.TenRowTable 12 3
      = some { bSuccess := false, Output := [FJsonEvent.ArrayStart none] } :=
  C2_start_past_rows_returns_false Example.TenRowTable Example.ScoreStruct 12 3 rfl
    (by decide)

/-- C3, as stated, fails: a table with a row type and zero rows makes the call return
false. -/
theorem C3_counterexample :
    Example.EmptyTypedTable.RowStruct ≠ none
    ∧ Example.EmptyTypedTable.RowMap.length = 0
    ∧ FGridlyExporter.ConvertToJsonTable Example.EmptyTypedTable 0 5
      = some { bSuccess := false, Output := [FJsonEvent.ArrayStart none] } := by
  decide

/-- C3, amended: the call always ends, and it returns false if and only if the row
type is absent or `StartIndex` is at or past the row count. -/
theorem C3_returns_false_iff (GridlyDataTable : UGridlyDataTable)
    (StartIndex MaxSize : Nat) :
    ∃ Result, FGridlyExporter.ConvertToJsonTable GridlyDataTable StartIndex MaxSize
        = some Result
      ∧ (Result.bSuccess = false ↔
          (GridlyDataTable.RowStruct = none
            ∨ GridlyDataTable.RowMap.length ≤ StartIndex)) := by
  cases hStruct : GridlyDataTable.RowStruct with
  | none =>
    exact ⟨{ bSuccess := false, Output := [] },
      by simp [FGridlyExporter.ConvertToJsonTable, hStruct], by simp⟩
  | some RowStruct =>
    by_cases hStart : StartIndex < GridlyDataTable.RowMap.length
    · refine ⟨_, ConvertToJsonTable_inside GridlyDataTable RowStruct StartIndex MaxSize
        hStruct hStart, ?_⟩
      simp
      omega
    · refine ⟨_, ConvertToJsonTable_outside GridlyDataTable RowStruct StartIndex MaxSize
        hStruct (by omega), ?_⟩
      simp
      omega

/-- C4: the table of one row whose only field is a `TArray` with `ArrayDim == 1`
exports, inside the record's cells, an object that holds the field's `columnId` and no
`value`: the field is not left out. -/
theorem C4_aggregate_field_writes_object :
    FGridlyExporter.ConvertToJsonTable Example.TagsTable 0 1
      = some { bSuccess := true,
               Output := [FJsonEvent.ArrayStart none, FJsonEvent.ObjectStart,
                 FJsonEvent.Value "id" (FJsonWritten.String "Row_0"),
                 FJsonEvent.ArrayStart (some "cells"),
                 FJsonEvent.ObjectStart,
                 FJsonEvent.Value "columnId" (FJsonWritten.String "Tags"),
                 FJsonEvent.ObjectEnd,
                 FJsonEvent.ArrayEnd, FJsonEvent.ObjectEnd, FJsonEvent.ArrayEnd] } := by
  decide

/-! ## Engine maps and record objects -/

theorem Equals_iff (A B : String) :
    FString.Equals A B = true ↔ A.data.map Char.toLower = B.data.map Char.toLower := by
  simp [FString.Equals]

theorem Equals_refl (A : String) : FString.Equals A A = true := by
  simp [FString.Equals]

theorem Equals_of_exact (A B : String) (h : A = B) : FString.Equals A B = true := by
  subst h
  exact Equals_refl A

theorem Equals_false_of_left (A B C : String) (hAB : FString.Equals A B = true)
    (hBC : FString.Equals B C = false) : FString.Equals A C = false := by
  have h1 := (Equals_iff A B).mp hAB
  cases hAC : FString.Equals A C with
  | false => rfl
  | true =>
    have h2 := (Equals_iff A C).mp hAC
    have h3 : FString.Equals B C = true := (Equals_iff B C).mpr (by rw [← h1, h2])
    rw [hBC] at h3
    exact absurd h3 (by simp)

theorem Find_nil {V : Type} (Key : String) : TMap.Find ([] : TMap V) Key = none := rfl

theorem Find_Add_self {V : Type} (M : TMap V) (Key : String) (Value : V) :
    TMap.Find (TMap.Add M Key Value) Key = some Value := by
  induction M with
  | nil => simp [TMap.Add, TMap.Find, Equals_refl]
  | cons kv Rest ih =>
    obtain ⟨k, v⟩ := kv
    by_cases hk : FString.Equals k Key = true
    · simp [TMap.Add, hk, TMap.Find, Equals_refl]
    · have ih' := ih
      simp only [TMap.Find] at ih'
      simp [TMap.Add, hk, TMap.Find, ih']

theorem Find_Add_other {V : Type} (M : TMap V) (Key Other : String) (Value : V)
    (h : FString.Equals Key Other = false) :
    TMap.Find (TMap.Add M Key Value) Other = TMap.Find M Other := by
  induction M with
  | nil => simp [TMap.Add, TMap.Find, h]
  | cons kv Rest ih =>
    obtain ⟨k, v⟩ := kv
    by_cases hk : FString.Equals k Key = true
    · have hko : FString.Equals k Other = false := Equals_false_of_left k Key Other hk h
      simp [TMap.Add, hk, TMap.Find, h, hko]
    · have ih' := ih
      simp only [TMap.Find] at ih'
      by_cases hko : FString.Equals k Other = true
      · simp [TMap.Add, hk, TMap.Find, hko]
      · simp [TMap.Add, hk, TMap.Find, hko, ih']

theorem GetStringField_SetStringField_self (Object : FJsonObject) (FieldName Value : String) :
    GetStringField (SetStringField Object FieldName Value) FieldName = some Value := by
  simp [GetStringField, SetStringField, Find_Add_self]

theorem GetStringField_SetStringField_other (Object : FJsonObject)
    (FieldName Other Value : String) (h : FString.Equals FieldName Other = false) :
    GetStringField (SetStringField Object FieldName Value) Other
      = GetStringField Object Other := by
  simp [GetStringField, SetStringField, Find_Add_other _ _ _ _ h]

theorem GetStringField_SetArrayField_other (Object : FJsonObject)
    (FieldName Other : String) (Cells : List FJsonCell)
    (h : FString.Equals FieldName Other = false) :
    GetStringField (SetArrayField Object FieldName Cells) Other
      = GetStringField Object Other := by
  simp [GetStringField, SetArrayField, Find_Add_other _ _ _ _ h]

theorem GetCells_SetArrayField (Object : FJsonObject) (Cells : List FJsonCell) :
    GetCells (SetArrayField Object "cells" Cells) = Cells := by
  simp [GetCells, SetArrayField, Find_Add_self]

theorem MakeCell_eq (ColumnId : String) (Value : FJsonScalar) :
    MakeCell ColumnId Value = [("columnId", FJsonScalar.String ColumnId), ("value", Value)] :=
  rfl

/-! ## The localization converter, section by section -/

theorem SetNamespacePath_Cells (GameSettings : UGridlyGameSettings) (Namespace : String)
    (B : FRowBuilder) :
    (SetNamespacePath GameSettings Namespace B).CellsJsonArray
      = B.CellsJsonArray ++ NamespaceCells GameSettings Namespace := by
  unfold NamespaceCells SetNamespacePath
  split_ifs <;> simp [FRowBuilder.AddCell, FRowBuilder.Empty]

theorem SetNamespacePath_Row (GameSettings : UGridlyGameSettings) (Namespace : String)
    (B : FRowBuilder) :
    (SetNamespacePath GameSettings Namespace B).RowJsonObject
      = if bExportNamespace GameSettings = true ∧ bUsePathAsNamespace GameSettings = true
        then SetStringField B.RowJsonObject "path" Namespace
        else B.RowJsonObject := by
  unfold SetNamespacePath
  split_ifs <;> simp_all [FRowBuilder.AddCell]

theorem AddSourceLanguage_Cells (GameSettings : UGridlyGameSettings)
    (CultureConverter : FGridlyCultureConverter) (Data : FPolyglotTextData)
    (B : FRowBuilder) :
    (AddSourceLanguage GameSettings CultureConverter Data B).CellsJsonArray
      = B.CellsJsonArray ++ SourceLanguageCells GameSettings CultureConverter Data := by
  unfold SourceLanguageCells AddSourceLanguage
  cases CultureConverter.ConvertToGridly Data.NativeCulture <;>
    simp [FRowBuilder.AddCell, FRowBuilder.Empty]

theorem AddSourceLanguage_Row (GameSettings : UGridlyGameSettings)
    (CultureConverter : FGridlyCultureConverter) (Data : FPolyglotTextData)
    (B : FRowBuilder) :
    (AddSourceLanguage GameSettings CultureConverter Data B).RowJsonObject
      = B.RowJsonObject := by
  unfold AddSourceLanguage
  cases CultureConverter.ConvertToGridly Data.NativeCulture <;> simp [FRowBuilder.AddCell]

theorem AddSourceLocation_Cells (GameSettings : UGridlyGameSettings)
    (ItemContext : Option FManifestContext) (B : FRowBuilder) :
    (AddSourceLocation GameSettings ItemContext B).CellsJsonArray
      = B.CellsJsonArray ++ SourceLocationCells GameSettings ItemContext := by
  unfold SourceLocationCells AddSourceLocation
  cases TMap.Find GameSettings.MetadataMapping "SourceLocation" <;> cases ItemContext <;>
    simp [FRowBuilder.AddCell, FRowBuilder.Empty]
  split_ifs <;> simp

theorem AddSourceLocation_Row (GameSettings : UGridlyGameSettings)
    (ItemContext : Option FManifestContext) (B : FRowBuilder) :
    (AddSourceLocation GameSettings ItemContext B).RowJsonObject
      = match TMap.Find GameSettings.MetadataMapping "SourceLocation", ItemContext with
        | some _, some Context =>
          if bUsePathAsNamespace GameSettings = false
              ∧ GameSettings.bExportTextTypeAsPath = true
          then SetStringField B.RowJsonObject "path" (DerivePath Context.SourceLocation)
          else B.RowJsonObject
        | _, _ => B.RowJsonObject := by
  unfold AddSourceLocation
  cases TMap.Find GameSettings.MetadataMapping "SourceLocation" <;> cases ItemContext <;>
    simp [FRowBuilder.AddCell]
  split_ifs <;> simp_all

/-- A loop whose every pass only appends cells: the record object is kept and the
cells of the passes are appended in order. -/
theorem foldl_appends {α : Type} (Step : FRowBuilder → α → FRowBuilder)
    (hRow : ∀ B x, (Step B x).RowJsonObject = B.RowJsonObject)
    (hCells : ∀ B x, (Step B x).CellsJsonArray
      = B.CellsJsonArray ++ (Step FRowBuilder.Empty x).CellsJsonArray)
    (xs : List α) (B : FRowBuilder) :
    (xs.foldl Step B).RowJsonObject = B.RowJsonObject
      ∧ (xs.foldl Step B).CellsJsonArray
          = B.CellsJsonArray ++ xs.flatMap (fun x => (Step FRowBuilder.Empty x).CellsJsonArray) := by
  induction xs generalizing B with
  | nil => simp
  | cons x Rest ih =>
    obtain ⟨ihRow, ihCells⟩ := ih (Step B x)
    refine ⟨?_, ?_⟩
    · rw [List.foldl_cons, ihRow, hRow]
    · rw [List.foldl_cons, ihCells, hCells, List.flatMap_cons, List.append_assoc]

theorem AddInfoMetadataPair_Row (GameSettings : UGridlyGameSettings) (Atoi : String → Int)
    (B : FRowBuilder) (Pair : String × FLocMetadataValue) :
    (AddInfoMetadataPair GameSettings Atoi B Pair).RowJsonObject = B.RowJsonObject := by
  unfold AddInfoMetadataPair
  cases TMap.Find GameSettings.MetadataMapping Pair.1 <;> simp [FRowBuilder.AddCell]

theorem AddInfoMetadataPair_Cells (GameSettings : UGridlyGameSettings) (Atoi : String → Int)
    (B : FRowBuilder) (Pair : String × FLocMetadataValue) :
    (AddInfoMetadataPair GameSettings Atoi B Pair).CellsJsonArray
      = B.CellsJsonArray
        ++ (AddInfoMetadataPair GameSettings Atoi FRowBuilder.Empty Pair).CellsJsonArray := by
  unfold AddInfoMetadataPair
  cases TMap.Find GameSettings.MetadataMapping Pair.1 <;>
    simp [FRowBuilder.AddCell, FRowBuilder.Empty]

theorem AddInfoMetadata_Row (GameSettings : UGridlyGameSettings) (Atoi : String → Int)
    (ItemContext : Option FManifestContext) (B : FRowBuilder) :
    (AddInfoMetadata GameSettings Atoi ItemContext B).RowJsonObject = B.RowJsonObject := by
  unfold AddInfoMetadata
  cases ItemContext with
  | none => rfl
  | some Context =>
    obtain ⟨Key, SourceLocation, Obj⟩ := Context
    cases Obj with
    | none => rfl
    | some Values =>
      exact (foldl_appends _ (AddInfoMetadataPair_Row GameSettings Atoi)
        (AddInfoMetadataPair_Cells GameSettings Atoi) Values B).1

theorem AddInfoMetadata_Cells (GameSettings : UGridlyGameSettings) (Atoi : String → Int)
    (ItemContext : Option FManifestContext) (B : FRowBuilder) :
    (AddInfoMetadata GameSettings Atoi ItemContext B).CellsJsonArray
      = B.CellsJsonArray ++ InfoMetadataCells GameSettings Atoi ItemContext := by
  unfold InfoMetadataCells AddInfoMetadata
  cases ItemContext with
  | none => simp [FRowBuilder.Empty]
  | some Context =>
    obtain ⟨Key, SourceLocation, Obj⟩ := Context
    cases Obj with
    | none => simp [FRowBuilder.Empty]
    | some Values =>
      simp only
      rw [(foldl_appends _ (AddInfoMetadataPair_Row GameSettings Atoi)
        (AddInfoMetadataPair_Cells GameSettings Atoi) Values B).2,
        (foldl_appends _ (AddInfoMetadataPair_Row GameSettings Atoi)
        (AddInfoMetadataPair_Cells GameSettings Atoi) Values FRowBuilder.Empty).2]
      simp [FRowBuilder.Empty]

theorem AddTargetTranslation_Row (GameSettings : UGridlyGameSettings)
    (CultureConverter : FGridlyCultureConverter) (Data : FPolyglotTextData)
    (B : FRowBuilder) (CultureName : String) :
    (AddTargetTranslation GameSettings CultureConverter Data B CultureName).RowJsonObject
      = B.RowJsonObject := by
  unfold AddTargetTranslation
  split_ifs
  · cases Data.GetLocalizedString CultureName <;>
      cases CultureConverter.ConvertToGridly CultureName <;> simp [FRowBuilder.AddCell]
  · rfl

theorem AddTargetTranslation_Cells (GameSettings : UGridlyGameSettings)
    (CultureConverter : FGridlyCultureConverter) (Data : FPolyglotTextData)
    (B : FRowBuilder) (CultureName : String) :
    (AddTargetTranslation GameSettings CultureConverter Data B CultureName).CellsJsonArray
      = B.CellsJsonArray
        ++ (AddTargetTranslation GameSettings CultureConverter Data FRowBuilder.Empty
              CultureName).CellsJsonArray := by
  unfold AddTargetTranslation
  split_ifs
  · cases Data.GetLocalizedString CultureName <;>
      cases CultureConverter.ConvertToGridly CultureName <;>
      simp [FRowBuilder.AddCell, FRowBuilder.Empty]
  · simp [FRowBuilder.Empty]

theorem AddTargetTranslations_Row (GameSettings : UGridlyGameSettings)
    (CultureConverter : FGridlyCultureConverter) (bIncludeTargetTranslations : Bool)
    (Data : FPolyglotTextData) (B : FRowBuilder) :
    (AddTargetTranslations GameSettings CultureConverter bIncludeTargetTranslations Data
      B).RowJsonObject = B.RowJsonObject := by
  unfold AddTargetTranslations
  split_ifs
  · exact (foldl_appends _ (AddTargetTranslation_Row GameSettings CultureConverter Data)
      (AddTargetTranslation_Cells GameSettings CultureConverter Data) _ B).1
  · rfl

theorem AddTargetTranslations_Cells (GameSettings : UGridlyGameSettings)
    (CultureConverter : FGridlyCultureConverter) (bIncludeTargetTranslations : Bool)
    (Data : FPolyglotTextData) (B : FRowBuilder) :
    (AddTargetTranslations GameSettings CultureConverter bIncludeTargetTranslations Data
      B).CellsJsonArray
      = B.CellsJsonArray
        ++ TargetLanguageCells GameSettings CultureConverter bIncludeTargetTranslations
            Data := by
  unfold TargetLanguageCells AddTargetTranslations
  split_ifs
  · rw [(foldl_appends _ (AddTargetTranslation_Row GameSettings CultureConverter Data)
        (AddTargetTranslation_Cells GameSettings CultureConverter Data) _ B).2,
      (foldl_appends _ (AddTargetTranslation_Row GameSettings CultureConverter Data)
        (AddTargetTranslation_Cells GameSettings CultureConverter Data) _
        FRowBuilder.Empty).2]
    simp [FRowBuilder.Empty]
  · simp [FRowBuilder.Empty]

/-- The cells of a record are the cells of its five sections, in the order of the
sections. -/
theorem GetCells_ConvertEntry (GameSettings : UGridlyGameSettings)
    (CultureConverter : FGridlyCultureConverter) (Atoi : String → Int)
    (bIncludeTargetTranslations : Bool) (LocTextHelperPtr : Option FLocTextHelper)
    (Data : FPolyglotTextData) :
    GetCells (ConvertEntry GameSettings CultureConverter Atoi bIncludeTargetTranslations
        LocTextHelperPtr Data)
      = NamespaceCells GameSettings Data.Namespace
        ++ SourceLanguageCells GameSettings CultureConverter Data
        ++ SourceLocationCells GameSettings
            (FindItemContext LocTextHelperPtr Data.Namespace Data.Key)
        ++ InfoMetadataCells GameSettings Atoi
            (FindItemContext LocTextHelperPtr Data.Namespace Data.Key)
        ++ TargetLanguageCells GameSettings CultureConverter bIncludeTargetTranslations
            Data := by
  unfold ConvertEntry
  simp only [GetCells_SetArrayField]
  unfold BuildRow
  simp only [AddTargetTranslations_Cells, AddInfoMetadata_Cells, AddSourceLocation_Cells,
    AddSourceLanguage_Cells, SetNamespacePath_Cells]
  simp [SetRecordId]
  split_ifs <;> rfl

/-- The string fields of a record are those the id, namespace and source location
sections set. -/
theorem GetStringField_ConvertEntry (GameSettings : UGridlyGameSettings)
    (CultureConverter : FGridlyCultureConverter) (Atoi : String → Int)
    (bIncludeTargetTranslations : Bool) (LocTextHelperPtr : Option FLocTextHelper)
    (Data : FPolyglotTextData) (FieldName : String)
    (h : FString.Equals "cells" FieldName = false) :
    GetStringField (ConvertEntry GameSettings CultureConverter Atoi
        bIncludeTargetTranslations LocTextHelperPtr Data) FieldName
      = GetStringField
          (AddSourceLocation GameSettings
            (FindItemContext LocTextHelperPtr Data.Namespace Data.Key)
            (SetNamespacePath GameSettings Data.Namespace
              (SetRecordId GameSettings Data.Namespace Data.Key
                FRowBuilder.Empty))).RowJsonObject FieldName := by
  unfold ConvertEntry
  rw [GetStringField_SetArrayField_other _ _ _ _ h]
  unfold BuildRow
  simp only [AddTargetTranslations_Row, AddInfoMetadata_Row]
  rw [AddSourceLocation_Row, AddSourceLocation_Row, AddSourceLanguage_Row]
  rfl

/-- The loop over the entries appends one record per entry, in input order. -/
theorem foldl_append_singleton {α β : Type} (f : α → β) (xs : List α) (Init : List β) :
    xs.foldl (fun Rows x => Rows ++ [f x]) Init = Init ++ xs.map f := by
  induction xs generalizing Init with
  | nil => simp
  | cons x Rest ih => simp [List.foldl_cons, ih, List.append_assoc]

/-- The `Rows` array holds the record of every entry, in input order. -/
theorem ConvertRows_eq_map (GameSettings : UGridlyGameSettings)
    (CultureConverter : FGridlyCultureConverter) (Atoi : String → Int)
    (bIncludeTargetTranslations : Bool) (LocTextHelperPtr : Option FLocTextHelper)
    (PolyglotTextDatas : List FPolyglotTextData) :
    ConvertRows GameSettings CultureConverter Atoi bIncludeTargetTranslations
        LocTextHelperPtr PolyglotTextDatas
      = PolyglotTextDatas.map (ConvertEntry GameSettings CultureConverter Atoi
          bIncludeTargetTranslations LocTextHelperPtr) := by
  unfold ConvertRows
  rw [foldl_append_singleton]
  rfl

/-! ## The probe for `- line` -/

theorem StartsWith_IgnoreCase_iff (Sub S : List Char) :
    FString.StartsWith ESearchCase.IgnoreCase Sub S = true
      ↔ Sub.map Char.toLower <+: S.map Char.toLower := by
  induction Sub generalizing S with
  | nil => simp [FString.StartsWith]
  | cons p ps ih =>
    cases S with
    | nil => simp [FString.StartsWith]
    | cons c cs =>
      simp [FString.StartsWith, FString.CharEq, ih, List.cons_prefix_cons]

theorem FindFrom_IgnoreCase_iff (Sub S : List Char) (i : Nat) :
    FString.FindFrom ESearchCase.IgnoreCase Sub S i > INDEX_NONE
      ↔ Sub.map Char.toLower <:+: S.map Char.toLower := by
  induction S generalizing i with
  | nil =>
    cases Sub with
    | nil =>
      simp only [FString.FindFrom, INDEX_NONE, List.isEmpty_nil, if_true, List.map_nil,
        List.infix_rfl, iff_true]
      omega
    | cons p ps => simp [FString.FindFrom, INDEX_NONE]
  | cons c cs ih =>
    rw [FString.FindFrom, List.map_cons, List.infix_cons_iff, ← List.map_cons,
      ← StartsWith_IgnoreCase_iff, ← ih (i + 1)]
    by_cases h : FString.StartsWith ESearchCase.IgnoreCase Sub (c :: cs) = true
    · simp only [h, if_true, true_or, iff_true, INDEX_NONE]
      omega
    · simp [h]

/-- The probe of line 100 succeeds exactly when the source location contains
`- line` with the case of its letters ignored. -/
theorem Find_line_iff (SourceLocation : String) :
    FString.Find SourceLocation "- line" ESearchCase.IgnoreCase > INDEX_NONE
      ↔ "- line".data <:+: SourceLocation.data.map Char.toLower := by
  unfold FString.Find
  rw [FindFrom_IgnoreCase_iff]
  have h : "- line".data.map Char.toLower = "- line".data := by decide
  rw [h]

theorem IsEmpty_of_Equals_path (S : String) (h : FString.Equals S "path" = true) :
    FString.IsEmpty S = false := by
  have h1 := (Equals_iff S "path").mp h
  cases hS : S.data with
  | nil =>
    rw [hS] at h1
    exact absurd h1 (by decide)
  | cons c cs => simp [FString.IsEmpty, hS]

/-- The namespace and source location sections leave the id of a record alone. -/
theorem GetStringField_id_sections (GameSettings : UGridlyGameSettings)
    (ItemContext : Option FManifestContext) (Namespace : String) (B : FRowBuilder) :
    GetStringField (AddSourceLocation GameSettings ItemContext
        (SetNamespacePath GameSettings Namespace B)).RowJsonObject "id"
      = GetStringField B.RowJsonObject "id" := by
  have hOther : ∀ (Object : FJsonObject) (Value : String),
      GetStringField (SetStringField Object "path" Value) "id" = GetStringField Object "id" :=
    fun Object Value => GetStringField_SetStringField_other Object "path" "id" Value (by decide)
  rw [AddSourceLocation_Row, SetNamespacePath_Row]
  split <;> split_ifs <;> simp only [hOther]

/-! ## `Replace` with a case-sensitive search -/

theorem StartsWith_CaseSensitive_iff (Sub S : List Char) :
    FString.StartsWith ESearchCase.CaseSensitive Sub S = true ↔ Sub <+: S := by
  induction Sub generalizing S with
  | nil => simp [FString.StartsWith]
  | cons p ps ih =>
    cases S with
    | nil => simp [FString.StartsWith]
    | cons c cs => simp [FString.StartsWith, FString.CharEq, ih, List.cons_prefix_cons]

/-- Once a match is found the loop steps over the rest of it. -/
theorem ReplaceGo_skip (SearchCase : ESearchCase) (From To Skipped Rest : List Char) :
    FString.ReplaceGo SearchCase From To Skipped.length (Skipped ++ Rest)
      = FString.ReplaceGo SearchCase From To 0 Rest := by
  induction Skipped with
  | nil => rfl
  | cons x xs ih => simpa [FString.ReplaceGo] using ih

/-- A text without an occurrence of `From` is left as it is. -/
theorem ReplaceGo_no_occurrence (From To S : List Char) (h : ¬ From <:+: S) :
    FString.ReplaceGo ESearchCase.CaseSensitive From To 0 S = S := by
  induction S with
  | nil => rfl
  | cons c cs ih =>
    have hStart : ¬ FString.StartsWith ESearchCase.CaseSensitive From (c :: cs) = true :=
      fun hs => h ((StartsWith_CaseSensitive_iff From (c :: cs)).mp hs).isInfix
    have hRest : ¬ From <:+: cs := fun hi => h (List.infix_cons hi)
    simp [FString.ReplaceGo, hStart, ih hRest]

/-- The first occurrence of `From` becomes `To`, and the replacement goes on in what
follows it. -/
theorem ReplaceGo_first_occurrence (From To Pre Post : List Char) (hne : From ≠ [])
    (hFirst : ¬ From <:+: Pre ++ From.dropLast) :
    FString.ReplaceGo ESearchCase.CaseSensitive From To 0 (Pre ++ From ++ Post)
      = Pre ++ To ++ FString.ReplaceGo ESearchCase.CaseSensitive From To 0 Post := by
  induction Pre with
  | nil =>
    cases From with
    | nil => exact absurd rfl hne
    | cons f fs =>
      have hStart : FString.StartsWith ESearchCase.CaseSensitive (f :: fs)
          (f :: (fs ++ Post)) = true :=
        (StartsWith_CaseSensitive_iff _ _).mpr ⟨Post, rfl⟩
      show FString.ReplaceGo ESearchCase.CaseSensitive (f :: fs) To 0 (f :: (fs ++ Post))
        = To ++ FString.ReplaceGo ESearchCase.CaseSensitive (f :: fs) To 0 Post
      rw [FString.ReplaceGo, if_pos hStart]
      show To ++ FString.ReplaceGo ESearchCase.CaseSensitive (f :: fs) To fs.length (fs ++ Post)
        = To ++ FString.ReplaceGo ESearchCase.CaseSensitive (f :: fs) To 0 Post
      rw [ReplaceGo_skip]
  | cons p pre ih =>
    have hStart : ¬ FString.StartsWith ESearchCase.CaseSensitive From
        (p :: (pre ++ From ++ Post)) = true := by
      intro hs
      have h1 : From <+: p :: (pre ++ From ++ Post) := (StartsWith_CaseSensitive_iff _ _).mp hs
      have h2 : (p :: pre) ++ From.dropLast <+: p :: (pre ++ From ++ Post) := by
        refine ⟨[From.getLast hne] ++ Post, ?_⟩
        have h3 := List.dropLast_append_getLast hne
        calc (p :: pre) ++ From.dropLast ++ ([From.getLast hne] ++ Post)
            = p :: (pre ++ (From.dropLast ++ [From.getLast hne]) ++ Post) := by simp
          _ = p :: (pre ++ From ++ Post) := by rw [h3]
      have h4 : From.length ≤ ((p :: pre) ++ From.dropLast).length := by
        have h5 : 0 < From.length := List.length_pos.mpr hne
        simp only [List.length_append, List.length_cons, List.length_dropLast]
        omega
      exact hFirst (List.prefix_of_prefix_length_le h1 h2 h4).isInfix
    have hRest : ¬ From <:+: pre ++ From.dropLast := fun hi => hFirst (List.infix_cons hi)
    show FString.ReplaceGo ESearchCase.CaseSensitive From To 0 (p :: (pre ++ From ++ Post))
      = p :: (pre ++ To ++ FString.ReplaceGo ESearchCase.CaseSensitive From To 0 Post)
    rw [FString.ReplaceGo, if_neg hStart, ih hRest]

/-! ## Claims on the localization converter -/

/-- C5: the id of an entry's record is `Namespace + "," + Key` when
`bUseCombinedNamespaceId` is set and `Key` otherwise; it equals `Namespace + "," + Key`
if and only if `bUseCombinedNamespaceId` is set. -/
theorem C5_record_id (GameSettings : UGridlyGameSettings)
    (CultureConverter : FGridlyCultureConverter) (Atoi : String → Int)
    (bIncludeTargetTranslations : Bool) (LocTextHelperPtr : Option FLocTextHelper)
    (Data : FPolyglotTextData) :
    GetStringField (ConvertEntry GameSettings CultureConverter Atoi
        bIncludeTargetTranslations LocTextHelperPtr Data) "id"
      = some (if GameSettings.bUseCombinedNamespaceId = true
          then Data.Namespace ++ "," ++ Data.Key else Data.Key)
    ∧ (GetStringField (ConvertEntry GameSettings CultureConverter Atoi
          bIncludeTargetTranslations LocTextHelperPtr Data) "id"
        = some (Data.Namespace ++ "," ++ Data.Key)
      ↔ GameSettings.bUseCombinedNamespaceId = true) := by
  have hId : GetStringField (ConvertEntry GameSettings CultureConverter Atoi
        bIncludeTargetTranslations LocTextHelperPtr Data) "id"
      = some (if GameSettings.bUseCombinedNamespaceId = true
          then Data.Namespace ++ "," ++ Data.Key else Data.Key) := by
    rw [GetStringField_ConvertEntry _ _ _ _ _ _ _ (by decide), GetStringField_id_sections]
    unfold SetRecordId
    split_ifs <;> simp [GetStringField_SetStringField_self]
  have hNe : Data.Key ≠ Data.Namespace ++ "," ++ Data.Key := by
    intro h
    have hLen := congrArg String.length h
    simp only [String.length_append] at hLen
    have hComma : ",".length = 1 := by decide
    omega
  refine ⟨hId, ?_⟩
  rw [hId]
  cases hComb : GameSettings.bUseCombinedNamespaceId with
  | true => simp
  | false => simpa using hNe

/-- The path of a record: the namespace in path mode when the namespace is exported,
the derived path outside path mode when a context and a `SourceLocation` column exist
and `bExportTextTypeAsPath` is set, and no path otherwise. -/
theorem GetStringField_path_ConvertEntry (GameSettings : UGridlyGameSettings)
    (CultureConverter : FGridlyCultureConverter) (Atoi : String → Int)
    (bIncludeTargetTranslations : Bool) (LocTextHelperPtr : Option FLocTextHelper)
    (Data : FPolyglotTextData) :
    GetStringField (ConvertEntry GameSettings CultureConverter Atoi
        bIncludeTargetTranslations LocTextHelperPtr Data) "path"
      = if bUsePathAsNamespace GameSettings = true then
          (if bExportNamespace GameSettings = true then some Data.Namespace else none)
        else
          match TMap.Find GameSettings.MetadataMapping "SourceLocation",
              FindItemContext LocTextHelperPtr Data.Namespace Data.Key with
          | some _, some Context =>
            if GameSettings.bExportTextTypeAsPath = true
            then some (DerivePath Context.SourceLocation) else none
          | _, _ => none := by
  have hNone : GetStringField
      (SetRecordId GameSettings Data.Namespace Data.Key FRowBuilder.Empty).RowJsonObject "path"
      = none := by
    unfold SetRecordId
    split_ifs <;>
      (simp only [FRowBuilder.Empty]
       rw [GetStringField_SetStringField_other _ "id" "path" _ (by decide)]
       rfl)
  rw [GetStringField_ConvertEntry _ _ _ _ _ _ _ (by decide), AddSourceLocation_Row,
    SetNamespacePath_Row]
  cases hU : bUsePathAsNamespace GameSettings <;>
    cases hE : bExportNamespace GameSettings <;>
    cases hT : GameSettings.bExportTextTypeAsPath <;>
    cases TMap.Find GameSettings.MetadataMapping "SourceLocation" <;>
    cases FindItemContext LocTextHelperPtr Data.Namespace Data.Key <;>
    simp [GetStringField_SetStringField_self, hNone]

theorem NamespaceCells_eq (GameSettings : UGridlyGameSettings) (Namespace : String) :
    NamespaceCells GameSettings Namespace
      = if bExportNamespace GameSettings = true ∧ bUsePathAsNamespace GameSettings = false
            ∧ FString.IsEmpty GameSettings.NamespaceColumnId = false
        then [MakeCell GameSettings.NamespaceColumnId (FJsonScalar.String Namespace)]
        else [] := by
  unfold NamespaceCells SetNamespacePath
  cases bExportNamespace GameSettings <;> cases bUsePathAsNamespace GameSettings <;>
    cases FString.IsEmpty GameSettings.NamespaceColumnId <;>
    simp [FRowBuilder.AddCell, FRowBuilder.Empty]

theorem NamespacePath_eq (GameSettings : UGridlyGameSettings) (Namespace : String) :
    NamespacePath GameSettings Namespace
      = if bExportNamespace GameSettings = true ∧ bUsePathAsNamespace GameSettings = true
        then some Namespace else none := by
  unfold NamespacePath
  rw [SetNamespacePath_Row]
  split_ifs
  · exact GetStringField_SetStringField_self _ _ _
  · rfl

/-- C6, as stated, fails in both directions. With the namespace exported
(`bUseCombinedNamespaceId` off) and an empty namespace column id the record has no path
and no cell at all; with the namespace not exported (combined id on, namespace column
off) a record still gets the path derived from its source location. -/
theorem C6_counterexample :
    bExportNamespace (Example.Settings false false "" false) = true
    ∧ ConvertEntry (Example.Settings false false "" false) Example.NoCultures
        Example.AtoiZero true none Example.Greeting
      = [("id", FJsonValue.String "Greeting"), ("cells", FJsonValue.Array [])]
    ∧ bExportNamespace (Example.Settings true false "Namespace" true) = false
    ∧ GetStringField (ConvertEntry (Example.Settings true false "Namespace" true)
        Example.NoCultures Example.AtoiZero true
        (some (Example.Helper "MyFile.cpp - line 42")) Example.Greeting) "path"
      = some "Code" := by
  decide

/-- C6, amended: the namespace section gives the record a namespace cell, or sets the
record's path to the namespace, if and only if the namespace is exported and the
namespace column id is not empty; otherwise it adds no cell and sets no path. The
record's cells begin with the namespace cells, and a path set to the namespace is the
path of the finished record. -/
theorem C6_namespace_cell_or_path (GameSettings : UGridlyGameSettings)
    (CultureConverter : FGridlyCultureConverter) (Atoi : String → Int)
    (bIncludeTargetTranslations : Bool) (LocTextHelperPtr : Option FLocTextHelper)
    (Data : FPolyglotTextData) :
    ((NamespaceCells GameSettings Data.Namespace
          = [MakeCell GameSettings.NamespaceColumnId (FJsonScalar.String Data.Namespace)]
        ∨ NamespacePath GameSettings Data.Namespace = some Data.Namespace)
      ↔ (bExportNamespace GameSettings = true
          ∧ FString.IsEmpty GameSettings.NamespaceColumnId = false))
    ∧ (¬ (bExportNamespace GameSettings = true
          ∧ FString.IsEmpty GameSettings.NamespaceColumnId = false) →
        NamespaceCells GameSettings Data.Namespace = []
          ∧ NamespacePath GameSettings Data.Namespace = none)
    ∧ GetCells (ConvertEntry GameSettings CultureConverter Atoi bIncludeTargetTranslations
          LocTextHelperPtr Data)
        = NamespaceCells GameSettings Data.Namespace
          ++ SourceLanguageCells GameSettings CultureConverter Data
          ++ SourceLocationCells GameSettings
              (FindItemContext LocTextHelperPtr Data.Namespace Data.Key)
          ++ InfoMetadataCells GameSettings Atoi
              (FindItemContext LocTextHelperPtr Data.Namespace Data.Key)
          ++ TargetLanguageCells GameSettings CultureConverter bIncludeTargetTranslations
              Data
    ∧ (NamespacePath GameSettings Data.Namespace = some Data.Namespace →
        GetStringField (ConvertEntry GameSettings CultureConverter Atoi
          bIncludeTargetTranslations LocTextHelperPtr Data) "path" = some Data.Namespace) := by
  have hEmpty : bUsePathAsNamespace GameSettings = true →
      FString.IsEmpty GameSettings.NamespaceColumnId = false :=
    fun h => IsEmpty_of_Equals_path _ h
  refine ⟨?_, ?_, GetCells_ConvertEntry _ _ _ _ _ _, ?_⟩
  · rw [NamespaceCells_eq, NamespacePath_eq]
    cases hE : bExportNamespace GameSettings <;>
      cases hU : bUsePathAsNamespace GameSettings <;>
      cases hI : FString.IsEmpty GameSettings.NamespaceColumnId <;>
      simp_all
  · rw [NamespaceCells_eq, NamespacePath_eq]
    cases hE : bExportNamespace GameSettings <;>
      cases hU : bUsePathAsNamespace GameSettings <;>
      cases hI : FString.IsEmpty GameSettings.NamespaceColumnId <;>
      simp_all
  · rw [NamespacePath_eq, GetStringField_path_ConvertEntry]
    cases hE : bExportNamespace GameSettings <;>
      cases hU : bUsePathAsNamespace GameSettings <;>
      simp

/-- C6, amended, at concrete inputs: an empty namespace column id gives no namespace
cell and no namespace path although the namespace is exported, and in path mode the
namespace becomes the path of the finished record. -/
theorem C6_namespace_cell_or_path_witness :
    (bExportNamespace (Example.Settings false false "" false) = true
      ∧ NamespaceCells (Example.Settings false false "" false) Example.Greeting.Namespace = []
      ∧ NamespacePath (Example.Settings false false "" false) Example.Greeting.Namespace
        = none)
    ∧ GetStringField (ConvertEntry (Example.Settings false false "path" false)
        Example.Cultures Example.AtoiZero true none Example.Greeting) "path"
      = some "Menu" :=
  ⟨⟨by decide,
      (C6_namespace_cell_or_path (Example.Settings false false "" false) Example.Cultures
        Example.AtoiZero true none Example.Greeting).2.1 (by decide)⟩,
    (C6_namespace_cell_or_path (Example.Settings false false "path" false) Example.Cultures
      Example.AtoiZero true none Example.Greeting).2.2.2 (by decide)⟩

/-- C7, as stated, fails: with the namespace column id `"path"`, the combined id on
and the namespace column off, the record gets no path at all. -/
theorem C7_counterexample :
    (Example.Settings true false "path" true).NamespaceColumnId = "path"
    ∧ GetStringField (ConvertEntry (Example.Settings true false "path" true)
        Example.Cultures Example.AtoiZero true
        (some (Example.Helper "Content/Loc/Strings.csv")) Example.Greeting) "path" = none
    ∧ GetStringField (ConvertEntry (Example.Settings true false "path" true)
        Example.Cultures Example.AtoiZero true
        (some (Example.Helper "Content/Loc/Strings.csv")) Example.Greeting) "path"
      ≠ some Example.Greeting.Namespace := by
  decide

/-- C7, amended: when the namespace column id compares equal to `"path"` (the code's
`FString` comparison, true in particular for the id `"path"` itself), the record gets no
namespace cell; its path is the entry's namespace when the namespace is exported, and
it has no path when the namespace is not exported. -/
theorem C7_path_mode (GameSettings : UGridlyGameSettings)
    (CultureConverter : FGridlyCultureConverter) (Atoi : String → Int)
    (bIncludeTargetTranslations : Bool) (LocTextHelperPtr : Option FLocTextHelper)
    (Data : FPolyglotTextData)
    (hPath : FString.Equals GameSettings.NamespaceColumnId "path" = true) :
    NamespaceCells GameSettings Data.Namespace = []
    ∧ (bExportNamespace GameSettings = true →
        GetStringField (ConvertEntry GameSettings CultureConverter Atoi
          bIncludeTargetTranslations LocTextHelperPtr Data) "path" = some Data.Namespace)
    ∧ (bExportNamespace GameSettings = false →
        GetStringField (ConvertEntry GameSettings CultureConverter Atoi
          bIncludeTargetTranslations LocTextHelperPtr Data) "path" = none) := by
  have hU : bUsePathAsNamespace GameSettings = true := hPath
  refine ⟨?_, ?_, ?_⟩
  · rw [NamespaceCells_eq]
    simp [hU]
  · intro hE
    rw [GetStringField_path_ConvertEntry]
    simp [hU, hE]
  · intro hE
    rw [GetStringField_path_ConvertEntry]
    simp [hU, hE]

/-- C7, amended, at a concrete input: the namespace column id `"path"` with the
namespace exported gives no namespace cell and the path `Menu`. -/
theorem C7_path_mode_witness :
    FString.Equals (Example.Settings false false "path" true).NamespaceColumnId "path" = true
    ∧ NamespaceCells (Example.Settings false false "path" true) Example.Greeting.Namespace
      = []
    ∧ GetStringField (ConvertEntry (Example.Settings false false "path" true)
        Example.Cultures Example.AtoiZero true
        (some (Example.Helper "Content/Loc/Strings.csv")) Example.Greeting) "path"
      = some "Menu" :=
  ⟨by decide,
    (C7_path_mode (Example.Settings false false "path" true) Example.Cultures
      Example.AtoiZero true (some (Example.Helper "Content/Loc/Strings.csv"))
      Example.Greeting (by decide)).1,
    (C7_path_mode (Example.Settings false false "path" true) Example.Cultures
      Example.AtoiZero true (some (Example.Helper "Content/Loc/Strings.csv"))
      Example.Greeting (by decide)).2.1 (by decide)⟩

/-- One pass of the target culture loop adds the cell of its culture, or nothing. -/
theorem AddTargetTranslation_Empty (GameSettings : UGridlyGameSettings)
    (CultureConverter : FGridlyCultureConverter) (Data : FPolyglotTextData)
    (CultureName : String) :
    (AddTargetTranslation GameSettings CultureConverter Data FRowBuilder.Empty
        CultureName).CellsJsonArray
      = (if FString.Equals CultureName Data.NativeCulture = true then none
          else
            match Data.GetLocalizedString CultureName,
                CultureConverter.ConvertToGridly CultureName with
            | some LocalizedString, some GridlyCulture =>
              some (MakeCell (GameSettings.TargetLanguageColumnIdPrefix ++ GridlyCulture)
                (FJsonScalar.String LocalizedString))
            | _, _ => none).toList := by
  unfold AddTargetTranslation
  cases FString.Equals CultureName Data.NativeCulture <;>
    cases Data.GetLocalizedString CultureName <;>
    cases CultureConverter.ConvertToGridly CultureName <;>
    simp [FRowBuilder.AddCell, FRowBuilder.Empty]

/-- C8: with `bIncludeTargetTranslations` set, the cells of a record are the cells it
has without target translations followed by one cell per target culture, in the order
of `GetTargetCultures`, for exactly the cultures that differ from the native culture
(the code's `FString` comparison), have a translation in the entry and map to a backend
culture; the cell holds the target prefix with the backend culture and the translated
text. Without target translations the record has the cells of the four earlier sections
only. For the entry authored in `en` with a translation for `fr` only and the target
cultures `en, fr, de`, the one target cell is the cell of `fr`. -/
theorem C8_target_language_cells (GameSettings : UGridlyGameSettings)
    (CultureConverter : FGridlyCultureConverter) (Atoi : String → Int)
    (LocTextHelperPtr : Option FLocTextHelper) (Data : FPolyglotTextData) :
    GetCells (ConvertEntry GameSettings CultureConverter Atoi true LocTextHelperPtr Data)
      = GetCells (ConvertEntry GameSettings CultureConverter Atoi false LocTextHelperPtr Data)
        ++ CultureConverter.GetTargetCultures.filterMap (fun CultureName =>
            if FString.Equals CultureName Data.NativeCulture = true then none
            else
              match Data.GetLocalizedString CultureName,
                  CultureConverter.ConvertToGridly CultureName with
              | some LocalizedString, some GridlyCulture =>
                some (MakeCell (GameSettings.TargetLanguageColumnIdPrefix ++ GridlyCulture)
                  (FJsonScalar.String LocalizedString))
              | _, _ => none)
    ∧ GetCells (ConvertEntry GameSettings CultureConverter Atoi false LocTextHelperPtr Data)
      = NamespaceCells GameSettings Data.Namespace
        ++ SourceLanguageCells GameSettings CultureConverter Data
        ++ SourceLocationCells GameSettings
            (FindItemContext LocTextHelperPtr Data.Namespace Data.Key)
        ++ InfoMetadataCells GameSettings Atoi
            (FindItemContext LocTextHelperPtr Data.Namespace Data.Key)
    ∧ GetCells (ConvertEntry (Example.Settings true false "" false) Example.Cultures
        Example.AtoiZero true none Example.Greeting)
      = GetCells (ConvertEntry (Example.Settings true false "" false) Example.Cultures
          Example.AtoiZero false none Example.Greeting)
        ++ [MakeCell "tg_fr" (FJsonScalar.String "Bonjour")] := by
  have hFalse : TargetLanguageCells GameSettings CultureConverter false Data = [] := by
    simp [TargetLanguageCells, AddTargetTranslations, FRowBuilder.Empty]
  have hTrue : TargetLanguageCells GameSettings CultureConverter true Data
      = CultureConverter.GetTargetCultures.filterMap (fun CultureName =>
            if FString.Equals CultureName Data.NativeCulture = true then none
            else
              match Data.GetLocalizedString CultureName,
                  CultureConverter.ConvertToGridly CultureName with
              | some LocalizedString, some GridlyCulture =>
                some (MakeCell (GameSettings.TargetLanguageColumnIdPrefix ++ GridlyCulture)
                  (FJsonScalar.String LocalizedString))
              | _, _ => none) := by
    unfold TargetLanguageCells AddTargetTranslations
    simp only [if_true]
    rw [(foldl_appends _ (AddTargetTranslation_Row GameSettings CultureConverter Data)
        (AddTargetTranslation_Cells GameSettings CultureConverter Data) _
        FRowBuilder.Empty).2, List.filterMap_eq_flatMap_toList]
    simp only [AddTargetTranslation_Empty]
    simp [FRowBuilder.Empty]
  refine ⟨?_, ?_, by decide⟩
  · rw [GetCells_ConvertEntry, GetCells_ConvertEntry, hFalse, hTrue, List.append_nil]
  · rw [GetCells_ConvertEntry, hFalse, List.append_nil]

/-- C9: for an entry with a manifest context, when the column mapping has an entry for
`SourceLocation`, the record has a cell whose `columnId` is the mapped column's name and
whose `value` is the context's source location after
`Replace(" - line ", ":", CaseSensitive)`; it is the one cell of the source location
section. The replacement leaves a source location without `" - line "` as it is, and
otherwise turns the first occurrence into `":"` and goes on in what follows it: every
occurrence is replaced, with the case of the letters respected. -/
theorem C9_source_location_cell (GameSettings : UGridlyGameSettings)
    (CultureConverter : FGridlyCultureConverter) (Atoi : String → Int)
    (bIncludeTargetTranslations : Bool) (LocTextHelperPtr : Option FLocTextHelper)
    (Data : FPolyglotTextData) (Context : FManifestContext)
    (GridlyColumnId : FGridlyColumnInfo)
    (hContext : FindItemContext LocTextHelperPtr Data.Namespace Data.Key = some Context)
    (hColumn : TMap.Find GameSettings.MetadataMapping "SourceLocation" = some GridlyColumnId) :
    MakeCell GridlyColumnId.Name (FJsonScalar.String
        (FString.Replace Context.SourceLocation " - line " ":" ESearchCase.CaseSensitive))
      ∈ GetCells (ConvertEntry GameSettings CultureConverter Atoi bIncludeTargetTranslations
          LocTextHelperPtr Data)
    ∧ SourceLocationCells GameSettings
        (FindItemContext LocTextHelperPtr Data.Namespace Data.Key)
      = [MakeCell GridlyColumnId.Name (FJsonScalar.String
          (FString.Replace Context.SourceLocation " - line " ":"
            ESearchCase.CaseSensitive))]
    ∧ (¬ (" - line ".data <:+: Context.SourceLocation.data) →
        FString.Replace Context.SourceLocation " - line " ":" ESearchCase.CaseSensitive
          = Context.SourceLocation)
    ∧ (∀ Pre Post : List Char,
        Context.SourceLocation.data = Pre ++ " - line ".data ++ Post →
        ¬ (" - line ".data <:+: Pre ++ " - line".data) →
        (FString.Replace Context.SourceLocation " - line " ":"
            ESearchCase.CaseSensitive).data
          = Pre ++ ":".data
            ++ (FString.Replace (String.mk Post) " - line " ":"
                ESearchCase.CaseSensitive).data) := by
  have hCells : SourceLocationCells GameSettings
        (FindItemContext LocTextHelperPtr Data.Namespace Data.Key)
      = [MakeCell GridlyColumnId.Name (FJsonScalar.String
          (FString.Replace Context.SourceLocation " - line " ":"
            ESearchCase.CaseSensitive))] := by
    rw [hContext]
    unfold SourceLocationCells AddSourceLocation
    simp only [hColumn]
    split_ifs <;> simp [FRowBuilder.AddCell, FRowBuilder.Empty]
  have hReplace : ∀ S : String,
      FString.Replace S " - line " ":" ESearchCase.CaseSensitive
        = String.mk (FString.ReplaceGo ESearchCase.CaseSensitive " - line ".data ":".data 0
            S.data) := fun S => rfl
  refine ⟨?_, hCells, ?_, ?_⟩
  · rw [GetCells_ConvertEntry, hCells]
    simp
  · intro hNo
    rw [hReplace, ReplaceGo_no_occurrence _ _ _ hNo]
  · intro Pre Post hSplit hFirst
    rw [hReplace, hReplace, hSplit]
    exact ReplaceGo_first_occurrence " - line ".data ":".data Pre Post (by decide) hFirst

/-- C9 at a concrete input: the source location `MyFile.cpp - line 42` is exported as
`MyFile.cpp:42` under the mapped column `source_location`. -/
theorem C9_source_location_cell_witness :
    MakeCell "source_location" (FJsonScalar.String "MyFile.cpp:42")
      ∈ GetCells (ConvertEntry (Example.Settings false false "Namespace" false)
          Example.Cultures Example.AtoiZero false
          (some (Example.Helper "MyFile.cpp - line 42")) Example.Greeting)
    ∧ (FString.Replace "MyFile.cpp - line 42" " - line " ":"
          ESearchCase.CaseSensitive).data
      = "MyFile.cpp".data ++ ":".data
        ++ (FString.Replace "42" " - line " ":" ESearchCase.CaseSensitive).data :=
  ⟨(C9_source_location_cell (Example.Settings false false "Namespace" false)
      Example.Cultures Example.AtoiZero false (some (Example.Helper "MyFile.cpp - line 42"))
      Example.Greeting
      { Key := "Greeting", SourceLocation := "MyFile.cpp - line 42", InfoMetadataObj := none }
      { Name := "source_location", DataType := EGridlyColumnDataType.String } rfl rfl).1,
    (C9_source_location_cell (Example.Settings false false "Namespace" false)
      Example.Cultures Example.AtoiZero false (some (Example.Helper "MyFile.cpp - line 42"))
      Example.Greeting
      { Key := "Greeting", SourceLocation := "MyFile.cpp - line 42", InfoMetadataObj := none }
      { Name := "source_location", DataType := EGridlyColumnDataType.String }
      rfl rfl).2.2.2 "MyFile.cpp".data "42".data rfl (by decide)⟩

/-- C10, as stated, fails: the source location `Foo.cpp - LINE 3` does not contain
`- line`, and the record's path is `Code`, not `StringTables/Foo`. -/
theorem C10_counterexample :
    ¬ ("- line".data <:+: "Foo.cpp - LINE 3".data)
    ∧ bUsePathAsNamespace (Example.Settings false false "Namespace" true) = false
    ∧ (Example.Settings false false "Namespace" true).bExportTextTypeAsPath = true
    ∧ "StringTables/" ++ FPaths.GetBaseFilename "Foo.cpp - LINE 3" = "StringTables/Foo"
    ∧ GetStringField (ConvertEntry (Example.Settings false false "Namespace" true)
        Example.Cultures Example.AtoiZero false
        (some (Example.Helper "Foo.cpp - LINE 3")) Example.Greeting) "path"
      = some "Code" := by
  decide

/-- C10, amended: for an entry with a manifest context and a `SourceLocation` column,
outside path mode and with `bExportTextTypeAsPath` set, the record's path is `Code` if
the source location contains `- line` with the case of its letters ignored, and
otherwise `StringTables/` followed by the base file name of the source location. -/
theorem C10_derived_path (GameSettings : UGridlyGameSettings)
    (CultureConverter : FGridlyCultureConverter) (Atoi : String → Int)
    (bIncludeTargetTranslations : Bool) (LocTextHelperPtr : Option FLocTextHelper)
    (Data : FPolyglotTextData) (Context : FManifestContext)
    (GridlyColumnId : FGridlyColumnInfo)
    (hContext : FindItemContext LocTextHelperPtr Data.Namespace Data.Key = some Context)
    (hColumn : TMap.Find GameSettings.MetadataMapping "SourceLocation" = some GridlyColumnId)
    (hNotPath : FString.Equals GameSettings.NamespaceColumnId "path" = false)
    (hTextType : GameSettings.bExportTextTypeAsPath = true) :
    ("- line".data <:+: Context.SourceLocation.data.map Char.toLower →
        GetStringField (ConvertEntry GameSettings CultureConverter Atoi
          bIncludeTargetTranslations LocTextHelperPtr Data) "path" = some "Code")
    ∧ (¬ ("- line".data <:+: Context.SourceLocation.data.map Char.toLower) →
        GetStringField (ConvertEntry GameSettings CultureConverter Atoi
          bIncludeTargetTranslations LocTextHelperPtr Data) "path"
        = some ("StringTables/" ++ FPaths.GetBaseFilename Context.SourceLocation)) := by
  have hU : bUsePathAsNamespace GameSettings = false := hNotPath
  have hPathField : GetStringField (ConvertEntry GameSettings CultureConverter Atoi
        bIncludeTargetTranslations LocTextHelperPtr Data) "path"
      = some (DerivePath Context.SourceLocation) := by
    rw [GetStringField_path_ConvertEntry, hContext, hColumn]
    simp [hU, hTextType]
  rw [hPathField]
  unfold DerivePath
  constructor
  · intro h
    have hFind := (Find_line_iff Context.SourceLocation).mpr h
    simp only [hFind, if_true]
    rfl
  · intro h
    have hFind : ¬ FString.Find Context.SourceLocation "- line" ESearchCase.IgnoreCase
        > INDEX_NONE := fun hf => h ((Find_line_iff Context.SourceLocation).mp hf)
    simp only [hFind, if_false]
    simp

/-- C10, amended, at concrete inputs: the source location `MyFile.cpp - line 42`
gives the path `Code`, and `Content/Loc/Strings.csv` gives `StringTables/Strings`. -/
theorem C10_derived_path_witness :
    GetStringField (ConvertEntry (Example.Settings false false "Namespace" true)
        Example.Cultures Example.AtoiZero false
        (some (Example.Helper "MyFile.cpp - line 42")) Example.Greeting) "path"
      = some "Code"
    ∧ ¬ ("- line".data <:+: "Content/Loc/Strings.csv".data.map Char.toLower)
    ∧ GetStringField (ConvertEntry (Example.Settings false false "Namespace" true)
        Example.Cultures Example.AtoiZero false
        (some (Example.Helper "Content/Loc/Strings.csv")) Example.Greeting) "path"
      = some "StringTables/Strings" :=
  ⟨(C10_derived_path (Example.Settings false false "Namespace" true)
      Example.Cultures Example.AtoiZero false
      (some (Example.Helper "MyFile.cpp - line 42")) Example.Greeting
      { Key := "Greeting", SourceLocation := "MyFile.cpp - line 42",
        InfoMetadataObj := none }
      { Name := "source_location", DataType := EGridlyColumnDataType.String }
      rfl rfl (by decide) rfl).1 (by decide),
    by decide,
    (C10_derived_path (Example.Settings false false "Namespace" true)
      Example.Cultures Example.AtoiZero false
      (some (Example.Helper "Content/Loc/Strings.csv")) Example.Greeting
      { Key := "Greeting", SourceLocation := "Content/Loc/Strings.csv",
        InfoMetadataObj := none }
      { Name := "source_location", DataType := EGridlyColumnDataType.String }
      rfl rfl (by decide) rfl).2 (by decide)⟩

/-! ## Shared facts for the claims on the whole document -/

/-- The id of a record, whatever the later sections do. -/
theorem GetStringField_id_ConvertEntry (GameSettings : UGridlyGameSettings)
    (CultureConverter : FGridlyCultureConverter) (Atoi : String → Int)
    (bIncludeTargetTranslations : Bool) (LocTextHelperPtr : Option FLocTextHelper)
    (Data : FPolyglotTextData) :
    GetStringField (ConvertEntry GameSettings CultureConverter Atoi
        bIncludeTargetTranslations LocTextHelperPtr Data) "id"
      = some (if GameSettings.bUseCombinedNamespaceId = true
          then Data.Namespace ++ "," ++ Data.Key else Data.Key) := by
  rw [GetStringField_ConvertEntry _ _ _ _ _ _ _ (by decide), GetStringField_id_sections]
  unfold SetRecordId
  split_ifs <;> simp [GetStringField_SetStringField_self]

/-- The converter hands back what the serializer answers. -/
theorem ConvertToJson_eq_Serialize (GameSettings : UGridlyGameSettings)
    (CultureConverter : FGridlyCultureConverter) (Atoi : String → Int)
    (Serialize : List FJsonObject → Bool × String)
    (PolyglotTextDatas : List FPolyglotTextData) (bIncludeTargetTranslations : Bool)
    (LocTextHelperPtr : Option FLocTextHelper) :
    FGridlyExporter.ConvertToJson GameSettings CultureConverter Atoi Serialize
        PolyglotTextDatas bIncludeTargetTranslations LocTextHelperPtr
      = Serialize (ConvertRows GameSettings CultureConverter Atoi
          bIncludeTargetTranslations LocTextHelperPtr PolyglotTextDatas) := by
  unfold FGridlyExporter.ConvertToJson
  simp only
  cases h : (Serialize (ConvertRows GameSettings CultureConverter Atoi
      bIncludeTargetTranslations LocTextHelperPtr PolyglotTextDatas)) with
  | mk Flag Text => cases Flag <;> simp

/-! ## Claims on the whole document -/

/-- C11: for every sequence of entries, every configuration, culture converter and
optional context lookup, the `Rows` array handed to the serializer holds exactly one
record per entry, in input order (the record of the entry, with the entry's id), and
the call returns the serializer's flag: it fails only if serialization fails. -/
theorem C11_one_record_per_entry (GameSettings : UGridlyGameSettings)
    (CultureConverter : FGridlyCultureConverter) (Atoi : String → Int)
    (Serialize : List FJsonObject → Bool × String)
    (PolyglotTextDatas : List FPolyglotTextData) (bIncludeTargetTranslations : Bool)
    (LocTextHelperPtr : Option FLocTextHelper) :
    ConvertRows GameSettings CultureConverter Atoi bIncludeTargetTranslations
        LocTextHelperPtr PolyglotTextDatas
      = PolyglotTextDatas.map (ConvertEntry GameSettings CultureConverter Atoi
          bIncludeTargetTranslations LocTextHelperPtr)
    ∧ (ConvertRows GameSettings CultureConverter Atoi bIncludeTargetTranslations
        LocTextHelperPtr PolyglotTextDatas).length = PolyglotTextDatas.length
    ∧ (ConvertRows GameSettings CultureConverter Atoi bIncludeTargetTranslations
        LocTextHelperPtr PolyglotTextDatas).map (fun Row => GetStringField Row "id")
      = PolyglotTextDatas.map (fun Data =>
          some (if GameSettings.bUseCombinedNamespaceId = true
            then Data.Namespace ++ "," ++ Data.Key else Data.Key))
    ∧ (FGridlyExporter.ConvertToJson GameSettings CultureConverter Atoi Serialize
        PolyglotTextDatas bIncludeTargetTranslations LocTextHelperPtr).1
      = (Serialize (ConvertRows GameSettings CultureConverter Atoi
          bIncludeTargetTranslations LocTextHelperPtr PolyglotTextDatas)).1
    ∧ (FGridlyExporter.ConvertToJson GameSettings CultureConverter Atoi Serialize
        PolyglotTextDatas bIncludeTargetTranslations LocTextHelperPtr).2
      = (Serialize (ConvertRows GameSettings CultureConverter Atoi
          bIncludeTargetTranslations LocTextHelperPtr PolyglotTextDatas)).2 := by
  refine ⟨ConvertRows_eq_map _ _ _ _ _ _, ?_, ?_, ?_, ?_⟩
  · rw [ConvertRows_eq_map, List.length_map]
  · rw [ConvertRows_eq_map, List.map_map]
    apply List.map_congr_left
    intro Data _
    exact GetStringField_id_ConvertEntry _ _ _ _ _ _
  · rw [ConvertToJson_eq_Serialize]
  · rw [ConvertToJson_eq_Serialize]

/-- C12: for the empty sequence of entries, under every configuration, the `Rows`
array is empty and the call returns what the serializer answers for it; with the
Document Serializer of the spec the call succeeds and the text is `[]`. -/
theorem C12_empty_document (GameSettings : UGridlyGameSettings)
    (CultureConverter : FGridlyCultureConverter) (Atoi : String → Int)
    (bIncludeTargetTranslations : Bool) (LocTextHelperPtr : Option FLocTextHelper) :
    ConvertRows GameSettings CultureConverter Atoi bIncludeTargetTranslations
        LocTextHelperPtr [] = []
    ∧ (∀ Serialize : List FJsonObject → Bool × String,
        FGridlyExporter.ConvertToJson GameSettings CultureConverter Atoi Serialize []
          bIncludeTargetTranslations LocTextHelperPtr = Serialize [])
    ∧ FGridlyExporter.ConvertToJson GameSettings CultureConverter Atoi
        Serializer.Serialize [] bIncludeTargetTranslations LocTextHelperPtr
      = (true, "[]") := by
  refine ⟨rfl, ?_, ?_⟩
  · intro Serialize
    rw [ConvertToJson_eq_Serialize]
    rfl
  · rw [ConvertToJson_eq_Serialize]
    rfl

/-! ## Shared facts for the claims on single sections -/

/-- The source language section adds the cell of the mapped native culture, or
nothing. -/
theorem SourceLanguageCells_eq (GameSettings : UGridlyGameSettings)
    (CultureConverter : FGridlyCultureConverter) (Data : FPolyglotTextData) :
    SourceLanguageCells GameSettings CultureConverter Data
      = match CultureConverter.ConvertToGridly Data.NativeCulture with
        | some GridlyCulture =>
          [MakeCell (GameSettings.SourceLanguageColumnIdPrefix ++ GridlyCulture)
            (FJsonScalar.String Data.NativeString)]
        | none => [] := by
  unfold SourceLanguageCells AddSourceLanguage
  cases CultureConverter.ConvertToGridly Data.NativeCulture <;>
    simp [FRowBuilder.AddCell, FRowBuilder.Empty]

/-- The target language section adds one cell per target culture that passes the
three tests of line 152, in the order of the target cultures. -/
theorem TargetLanguageCells_eq (GameSettings : UGridlyGameSettings)
    (CultureConverter : FGridlyCultureConverter) (bIncludeTargetTranslations : Bool)
    (Data : FPolyglotTextData) :
    TargetLanguageCells GameSettings CultureConverter bIncludeTargetTranslations Data
      = if bIncludeTargetTranslations = true then
          CultureConverter.GetTargetCultures.flatMap (fun CultureName =>
            (AddTargetTranslation GameSettings CultureConverter Data FRowBuilder.Empty
              CultureName).CellsJsonArray)
        else [] := by
  unfold TargetLanguageCells AddTargetTranslations
  split_ifs
  · rw [(foldl_appends _ (AddTargetTranslation_Row GameSettings CultureConverter Data)
      (AddTargetTranslation_Cells GameSettings CultureConverter Data) _
      FRowBuilder.Empty).2]
    simp [FRowBuilder.Empty]
  · simp [FRowBuilder.Empty]

/-- The target language cells do not read the mapping of the native culture. -/
theorem TargetLanguageCells_congr (GameSettings : UGridlyGameSettings)
    (CultureConverter Other : FGridlyCultureConverter) (bIncludeTargetTranslations : Bool)
    (Data : FPolyglotTextData)
    (hTargets : Other.GetTargetCultures = CultureConverter.GetTargetCultures)
    (hOthers : ∀ Culture, Culture ≠ Data.NativeCulture →
      Other.ConvertToGridly Culture = CultureConverter.ConvertToGridly Culture) :
    TargetLanguageCells GameSettings Other bIncludeTargetTranslations Data
      = TargetLanguageCells GameSettings CultureConverter bIncludeTargetTranslations
          Data := by
  rw [TargetLanguageCells_eq, TargetLanguageCells_eq, hTargets]
  congr 1
  congr 1
  funext CultureName
  rw [AddTargetTranslation_Empty, AddTargetTranslation_Empty]
  by_cases hEq : FString.Equals CultureName Data.NativeCulture = true
  · simp [hEq]
  · have hNe : CultureName ≠ Data.NativeCulture := fun h =>
      hEq (Equals_of_exact _ _ h)
    rw [hOthers CultureName hNe]

/-- C13: if the culture converter maps the native culture to a backend culture, the
record has the source language cell (source prefix with the backend culture, native
text) between the namespace cells and the cells of the later sections; if the mapping
fails, the record has no source language cell. The other cells and the string fields
(id, path) are the same for any two converters that differ only in what they answer
for the native culture, so a failed mapping changes nothing but that one cell. -/
theorem C13_source_language_cell (GameSettings : UGridlyGameSettings)
    (CultureConverter : FGridlyCultureConverter) (Atoi : String → Int)
    (bIncludeTargetTranslations : Bool) (LocTextHelperPtr : Option FLocTextHelper)
    (Data : FPolyglotTextData) :
    (∀ GridlyCulture, CultureConverter.ConvertToGridly Data.NativeCulture = some GridlyCulture →
      GetCells (ConvertEntry GameSettings CultureConverter Atoi bIncludeTargetTranslations
          LocTextHelperPtr Data)
        = NamespaceCells GameSettings Data.Namespace
          ++ [MakeCell (GameSettings.SourceLanguageColumnIdPrefix ++ GridlyCulture)
                (FJsonScalar.String Data.NativeString)]
          ++ (SourceLocationCells GameSettings
                (FindItemContext LocTextHelperPtr Data.Namespace Data.Key)
              ++ InfoMetadataCells GameSettings Atoi
                (FindItemContext LocTextHelperPtr Data.Namespace Data.Key)
              ++ TargetLanguageCells GameSettings CultureConverter
                bIncludeTargetTranslations Data))
    ∧ (CultureConverter.ConvertToGridly Data.NativeCulture = none →
      SourceLanguageCells GameSettings CultureConverter Data = []
      ∧ GetCells (ConvertEntry GameSettings CultureConverter Atoi bIncludeTargetTranslations
          LocTextHelperPtr Data)
        = NamespaceCells GameSettings Data.Namespace
          ++ (SourceLocationCells GameSettings
                (FindItemContext LocTextHelperPtr Data.Namespace Data.Key)
              ++ InfoMetadataCells GameSettings Atoi
                (FindItemContext LocTextHelperPtr Data.Namespace Data.Key)
              ++ TargetLanguageCells GameSettings CultureConverter
                bIncludeTargetTranslations Data))
    ∧ (∀ Other : FGridlyCultureConverter,
        Other.GetTargetCultures = CultureConverter.GetTargetCultures →
        (∀ Culture, Culture ≠ Data.NativeCulture →
          Other.ConvertToGridly Culture = CultureConverter.ConvertToGridly Culture) →
        TargetLanguageCells GameSettings Other bIncludeTargetTranslations Data
            = TargetLanguageCells GameSettings CultureConverter bIncludeTargetTranslations
                Data
          ∧ ∀ FieldName, FString.Equals "cells" FieldName = false →
              GetStringField (ConvertEntry GameSettings Other Atoi
                bIncludeTargetTranslations LocTextHelperPtr Data) FieldName
              = GetStringField (ConvertEntry GameSettings CultureConverter Atoi
                bIncludeTargetTranslations LocTextHelperPtr Data) FieldName) := by
  refine ⟨?_, ?_, ?_⟩
  · intro GridlyCulture hMaps
    rw [GetCells_ConvertEntry, SourceLanguageCells_eq, hMaps]
    simp [List.append_assoc]
  · intro hFails
    have hNone : SourceLanguageCells GameSettings CultureConverter Data = [] := by
      rw [SourceLanguageCells_eq, hFails]
    refine ⟨hNone, ?_⟩
    rw [GetCells_ConvertEntry, hNone]
    simp [List.append_assoc]
  · intro Other hTargets hOthers
    refine ⟨TargetLanguageCells_congr GameSettings CultureConverter Other
      bIncludeTargetTranslations Data hTargets hOthers, ?_⟩
    intro FieldName hField
    rw [GetStringField_ConvertEntry _ _ _ _ _ _ _ hField,
      GetStringField_ConvertEntry _ _ _ _ _ _ _ hField]

/-- C13 at concrete inputs: the converter that maps `en` gives the entry the cell
`src_en`, the converter that differs from it only in not mapping `en` gives the same
record without that cell. -/
theorem C13_source_language_cell_witness :
    GetCells (ConvertEntry (Example.Settings false false "Namespace" false)
        Example.Cultures Example.AtoiZero true none Example.Greeting)
      = [MakeCell "Namespace" (FJsonScalar.String "Menu"),
         MakeCell "src_en" (FJsonScalar.String "Hello"),
         MakeCell "tg_fr" (FJsonScalar.String "Bonjour")]
    ∧ GetCells (ConvertEntry (Example.Settings false false "Namespace" false)
        Example.CulturesWithoutNative Example.AtoiZero true none Example.Greeting)
      = [MakeCell "Namespace" (FJsonScalar.String "Menu"),
         MakeCell "tg_fr" (FJsonScalar.String "Bonjour")]
    ∧ TargetLanguageCells (Example.Settings false false "Namespace" false)
        Example.CulturesWithoutNative true Example.Greeting
      = TargetLanguageCells (Example.Settings false false "Namespace" false)
        Example.Cultures true Example.Greeting :=
  ⟨(C13_source_language_cell (Example.Settings false false "Namespace" false)
      Example.Cultures Example.AtoiZero true none Example.Greeting).1 "en" rfl,
    ((C13_source_language_cell (Example.Settings false false "Namespace" false)
      Example.CulturesWithoutNative Example.AtoiZero true none Example.Greeting).2.1 rfl).2,
    ((C13_source_language_cell (Example.Settings false false "Namespace" false)
      Example.Cultures Example.AtoiZero true none Example.Greeting).2.2
        Example.CulturesWithoutNative rfl
        (fun Culture hNe => by
          have hNe' : Culture ≠ "en" := hNe
          show (if Culture = "en" then none else some Culture) = some Culture
          rw [if_neg hNe'])).1⟩

/-- The events of a cell whose property is not an aggregate and has `ArrayDim == 1`. -/
theorem CellEvents_scalar (RowData : FRowData) (BaseProp : FProperty)
    (hDim : BaseProp.ArrayDim = 1) (hScalar : IsAggregateClass BaseProp.Class = false) :
    CellEvents RowData BaseProp
      = [FJsonEvent.ObjectStart,
         FJsonEvent.Value "columnId" (FJsonWritten.String BaseProp.ExportName),
         FJsonEvent.Value "value"
           (match BaseProp.Class with
            | EPropertyClass.Enum => FJsonWritten.String (RowData.ValueAsString BaseProp)
            | EPropertyClass.Numeric NumericType bIsEnum =>
              if bIsEnum = true then FJsonWritten.String (RowData.ValueAsString BaseProp)
              else if NumericType.IsInteger = true then
                FJsonWritten.Integer
                  (GetSignedIntPropertyValue (RowData.StoredInteger BaseProp))
              else FJsonWritten.Double (RowData.FloatingPoint BaseProp)
            | EPropertyClass.Bool => FJsonWritten.Boolean (RowData.BoolValue BaseProp)
            | _ => FJsonWritten.String (RowData.ValueAsString BaseProp)),
         FJsonEvent.ObjectEnd] := by
  unfold CellEvents WriteCell WriteCellValue
  cases hClass : BaseProp.Class with
  | Numeric NumericType bIsEnum =>
    cases bIsEnum <;> cases hInt : NumericType.IsInteger <;>
      simp [hDim, hInt, TJsonWriter.WriteObjectEnd, TJsonWriter.WriteValue,
        TJsonWriter.WriteObjectStart, TJsonWriter.Create]
  | Enum =>
    simp [hDim, TJsonWriter.WriteObjectEnd, TJsonWriter.WriteValue,
      TJsonWriter.WriteObjectStart, TJsonWriter.Create]
  | Bool =>
    simp [hDim, TJsonWriter.WriteObjectEnd, TJsonWriter.WriteValue,
      TJsonWriter.WriteObjectStart, TJsonWriter.Create]
  | Other =>
    simp [hDim, TJsonWriter.WriteObjectEnd, TJsonWriter.WriteValue,
      TJsonWriter.WriteObjectStart, TJsonWriter.Create]
  | Array => simp [hClass, IsAggregateClass] at hScalar
  | Set => simp [hClass, IsAggregateClass] at hScalar
  | Map => simp [hClass, IsAggregateClass] at hScalar
  | Struct => simp [hClass, IsAggregateClass] at hScalar

/-- Reading a stored integer as `int64` keeps every value of the `int64` range. -/
theorem GetSignedIntPropertyValue_of_int64 (Stored : Int)
    (hLow : -(2 ^ 63) ≤ Stored) (hHigh : Stored < 2 ^ 63) :
    GetSignedIntPropertyValue Stored = Stored := by
  unfold GetSignedIntPropertyValue
  omega

/-- Reading a stored integer from `2 ^ 63` up to `2 ^ 64` as `int64` gives the
negative integer `2 ^ 64` below it. -/
theorem GetSignedIntPropertyValue_of_high (Stored : Int)
    (hLow : 2 ^ 63 ≤ Stored) (hHigh : Stored < 2 ^ 64) :
    GetSignedIntPropertyValue Stored = Stored - 2 ^ 64 := by
  unfold GetSignedIntPropertyValue
  omega

/-- The cells of a record open no record. -/
theorem CountRecords_CellEvents (RowData : FRowData) (BaseProp : FProperty)
    (Rest : List FJsonEvent) :
    CountRecords (CellEvents RowData BaseProp ++ Rest) 3 = CountRecords Rest 3 := by
  unfold CellEvents WriteCell WriteCellValue
  by_cases hDim : BaseProp.ArrayDim = 1
  · cases BaseProp.Class with
    | Numeric NumericType bIsEnum =>
      cases bIsEnum <;> cases hInt : NumericType.IsInteger <;>
        simp [hDim, hInt, TJsonWriter.WriteObjectEnd, TJsonWriter.WriteValue,
          TJsonWriter.WriteObjectStart, TJsonWriter.Create, CountRecords]
    | _ =>
      simp [hDim, TJsonWriter.WriteObjectEnd, TJsonWriter.WriteValue,
        TJsonWriter.WriteObjectStart, TJsonWriter.Create, CountRecords]
  · simp [hDim, TJsonWriter.Create]

theorem CountRecords_cells (RowData : FRowData) (RowStruct : List FProperty)
    (Rest : List FJsonEvent) :
    CountRecords (RowStruct.flatMap (CellEvents RowData) ++ Rest) 3
      = CountRecords Rest 3 := by
  induction RowStruct with
  | nil => rfl
  | cons P Ps ih =>
    rw [List.flatMap_cons, List.append_assoc, CountRecords_CellEvents, ih]

/-- A record counts once. -/
theorem CountRecords_RowEvents (RowStruct : List FProperty) (RowName : FName)
    (RowData : FRowData) (Rest : List FJsonEvent) :
    CountRecords (RowEvents RowStruct RowName RowData ++ Rest) 1
      = 1 + CountRecords Rest 1 := by
  rw [RowEvents_eq]
  have hShape : [FJsonEvent.ObjectStart,
        FJsonEvent.Value "id" (FJsonWritten.String RowName.ToString),
        FJsonEvent.ArrayStart (some "cells")]
      ++ RowStruct.flatMap (CellEvents RowData)
      ++ [FJsonEvent.ArrayEnd, FJsonEvent.ObjectEnd] ++ Rest
      = FJsonEvent.ObjectStart
        :: FJsonEvent.Value "id" (FJsonWritten.String RowName.ToString)
        :: FJsonEvent.ArrayStart (some "cells")
        :: (RowStruct.flatMap (CellEvents RowData)
            ++ (FJsonEvent.ArrayEnd :: FJsonEvent.ObjectEnd :: Rest)) := by
    simp
  rw [hShape]
  show 1 + CountRecords (RowStruct.flatMap (CellEvents RowData)
      ++ (FJsonEvent.ArrayEnd :: FJsonEvent.ObjectEnd :: Rest)) 3 = 1 + CountRecords Rest 1
  rw [CountRecords_cells]
  rfl

/-- The records of keys of the row map count one each. -/
theorem CountRecords_window (RowStruct : List FProperty)
    (RowMap : List (FName × FRowData)) (Window : List FName) (Rest : List FJsonEvent)
    (hKeys : ∀ RowName ∈ Window, RowName ∈ RowMap.map Prod.fst) :
    CountRecords (Window.flatMap (RecordOf RowStruct RowMap) ++ Rest) 1
      = Window.length + CountRecords Rest 1 := by
  induction Window with
  | nil => simp
  | cons RowName Names ih =>
    obtain ⟨RowData, hData⟩ :=
      lookup_of_mem_keys RowMap RowName (hKeys RowName (List.mem_cons_self _ _))
    have ih' := ih (fun Name hName => hKeys Name (List.mem_cons_of_mem _ hName))
    rw [List.flatMap_cons, List.append_assoc]
    simp only [RecordOf, hData]
    rw [CountRecords_RowEvents]
    simp only [RecordOf] at ih'
    rw [ih', List.length_cons]
    omega

/-! ## Claims on the cells and the result of the table converter -/

/-- C15: for every row and every property that is not an aggregate and has
`ArrayDim == 1`, the property loop writes exactly one cell object: the `columnId` is the
property's export name and the `value` follows the class of the property in the order
of the code: an enum property gives the string form, a numeric property flagged as enum
the string form, an integer numeric property an integer, another numeric property a
floating point number, a bool property a boolean and every other class the string form.
The cells of a record are those of the properties of the row struct, in its order. -/
theorem C15_scalar_field_cell (RowData : FRowData) (BaseProp : FProperty)
    (hDim : BaseProp.ArrayDim = 1) (hScalar : IsAggregateClass BaseProp.Class = false) :
    CellEvents RowData BaseProp
      = [FJsonEvent.ObjectStart,
         FJsonEvent.Value "columnId" (FJsonWritten.String BaseProp.ExportName),
         FJsonEvent.Value "value"
           (match BaseProp.Class with
            | EPropertyClass.Enum => FJsonWritten.String (RowData.ValueAsString BaseProp)
            | EPropertyClass.Numeric NumericType bIsEnum =>
              if bIsEnum = true then FJsonWritten.String (RowData.ValueAsString BaseProp)
              else if NumericType.IsInteger = true then
                FJsonWritten.Integer
                  (GetSignedIntPropertyValue (RowData.StoredInteger BaseProp))
              else FJsonWritten.Double (RowData.FloatingPoint BaseProp)
            | EPropertyClass.Bool => FJsonWritten.Boolean (RowData.BoolValue BaseProp)
            | _ => FJsonWritten.String (RowData.ValueAsString BaseProp)),
         FJsonEvent.ObjectEnd]
    ∧ ∀ (RowStruct : List FProperty) (RowName : FName),
        RowEvents RowStruct RowName RowData
          = [FJsonEvent.ObjectStart,
              FJsonEvent.Value "id" (FJsonWritten.String RowName.ToString),
              FJsonEvent.ArrayStart (some "cells")]
            ++ RowStruct.flatMap (CellEvents RowData)
            ++ [FJsonEvent.ArrayEnd, FJsonEvent.ObjectEnd] :=
  ⟨CellEvents_scalar RowData BaseProp hDim hScalar,
    fun RowStruct RowName => RowEvents_eq RowStruct RowName RowData⟩

/-- C15 at concrete inputs: on a row with the label `Label`, the integer -5, a floating
point value and the flag `true`, an enum property and a byte property flagged as enum
export the label, an `int32` property the integer -5, a `double` property the floating
point value, a bool property `true` and a property of another class the label. -/
theorem C15_scalar_field_cell_witness :
    CellEvents Example.MixedRow Example.KindProperty
      = [FJsonEvent.ObjectStart, FJsonEvent.Value "columnId" (FJsonWritten.String "Kind"),
         FJsonEvent.Value "value" (FJsonWritten.String "Label"), FJsonEvent.ObjectEnd]
    ∧ CellEvents Example.MixedRow Example.ByteProperty
      = [FJsonEvent.ObjectStart, FJsonEvent.Value "columnId" (FJsonWritten.String "Byte"),
         FJsonEvent.Value "value" (FJsonWritten.String "Label"), FJsonEvent.ObjectEnd]
    ∧ CellEvents Example.MixedRow Example.ScoreProperty
      = [FJsonEvent.ObjectStart, FJsonEvent.Value "columnId" (FJsonWritten.String "Score"),
         FJsonEvent.Value "value" (FJsonWritten.Integer (-5)), FJsonEvent.ObjectEnd]
    ∧ CellEvents Example.MixedRow Example.RatioProperty
      = [FJsonEvent.ObjectStart, FJsonEvent.Value "columnId" (FJsonWritten.String "Ratio"),
         FJsonEvent.Value "value" (FJsonWritten.Double { Bits := 4609434218613702656 }),
         FJsonEvent.ObjectEnd]
    ∧ CellEvents Example.MixedRow Example.FlagProperty
      = [FJsonEvent.ObjectStart, FJsonEvent.Value "columnId" (FJsonWritten.String "Flag"),
         FJsonEvent.Value "value" (FJsonWritten.Boolean true), FJsonEvent.ObjectEnd]
    ∧ CellEvents Example.MixedRow Example.TitleProperty
      = [FJsonEvent.ObjectStart, FJsonEvent.Value "columnId" (FJsonWritten.String "Title"),
         FJsonEvent.Value "value" (FJsonWritten.String "Label"), FJsonEvent.ObjectEnd] :=
  ⟨(C15_scalar_field_cell Example.MixedRow Example.KindProperty rfl rfl).1,
    (C15_scalar_field_cell Example.MixedRow Example.ByteProperty rfl rfl).1,
    (C15_scalar_field_cell Example.MixedRow Example.ScoreProperty rfl rfl).1,
    (C15_scalar_field_cell Example.MixedRow Example.RatioProperty rfl rfl).1,
    (C15_scalar_field_cell Example.MixedRow Example.FlagProperty rfl rfl).1,
    (C15_scalar_field_cell Example.MixedRow Example.TitleProperty rfl rfl).1⟩

/-- C16, as stated, fails: the table of one row whose `uint64` field stores `2 ^ 63`
exports the value `-9223372036854775808`; the sign has changed. -/
theorem C16_counterexample :
    ENumericType.InRange ENumericType.UInt64 (2 ^ 63) = true
    ∧ Example.BigTable.RowStruct = some [Example.BigProperty]
    ∧ Example.BigProperty.Class = EPropertyClass.Numeric ENumericType.UInt64 false
    ∧ (Example.ScoreRow (2 ^ 63)).StoredInteger Example.BigProperty = 9223372036854775808
    ∧ FGridlyExporter.ConvertToJsonTable Example.BigTable 0 1
      = some { bSuccess := true,
               Output := [FJsonEvent.ArrayStart none, FJsonEvent.ObjectStart,
                 FJsonEvent.Value "id" (FJsonWritten.String "Row_0"),
                 FJsonEvent.ArrayStart (some "cells"),
                 FJsonEvent.ObjectStart,
                 FJsonEvent.Value "columnId" (FJsonWritten.String "Big"),
                 FJsonEvent.Value "value" (FJsonWritten.Integer (-9223372036854775808)),
                 FJsonEvent.ObjectEnd,
                 FJsonEvent.ArrayEnd, FJsonEvent.ObjectEnd, FJsonEvent.ArrayEnd] } := by
  decide

/-- C16, amended: for a numeric property that is not flagged as enum, of an integer
class and with `ArrayDim == 1`, the cell's value is the stored integer read as `int64`:
the stored value itself for every 8, 16 and 32 bit class, for `int64` and for a `uint64`
value below `2 ^ 63`, and the stored value less `2 ^ 64` for a `uint64` value from
`2 ^ 63` on. -/
theorem C16_integer_cell_value (RowData : FRowData) (BaseProp : FProperty)
    (NumericType : ENumericType)
    (hDim : BaseProp.ArrayDim = 1)
    (hClass : BaseProp.Class = EPropertyClass.Numeric NumericType false)
    (hInteger : NumericType.IsInteger = true)
    (hRange : NumericType.InRange (RowData.StoredInteger BaseProp) = true) :
    CellEvents RowData BaseProp
      = [FJsonEvent.ObjectStart,
         FJsonEvent.Value "columnId" (FJsonWritten.String BaseProp.ExportName),
         FJsonEvent.Value "value" (FJsonWritten.Integer
           (if NumericType = ENumericType.UInt64 ∧ 2 ^ 63 ≤ RowData.StoredInteger BaseProp
            then RowData.StoredInteger BaseProp - 2 ^ 64
            else RowData.StoredInteger BaseProp)),
         FJsonEvent.ObjectEnd] := by
  have hScalar : IsAggregateClass BaseProp.Class = false := by
    rw [hClass]
    rfl
  rw [CellEvents_scalar RowData BaseProp hDim hScalar, hClass]
  simp only [hInteger, if_true, Bool.false_eq_true, if_false]
  have hValue : GetSignedIntPropertyValue (RowData.StoredInteger BaseProp)
      = (if NumericType = ENumericType.UInt64 ∧ 2 ^ 63 ≤ RowData.StoredInteger BaseProp
          then RowData.StoredInteger BaseProp - 2 ^ 64
          else RowData.StoredInteger BaseProp) := by
    by_cases hBig : NumericType = ENumericType.UInt64
        ∧ 2 ^ 63 ≤ RowData.StoredInteger BaseProp
    · rw [if_pos hBig]
      obtain ⟨hType, hHigh⟩ := hBig
      rw [hType] at hRange
      simp [ENumericType.InRange] at hRange
      exact GetSignedIntPropertyValue_of_high _ hHigh (by omega)
    · rw [if_neg hBig]
      apply GetSignedIntPropertyValue_of_int64
      · cases NumericType <;> simp [ENumericType.InRange] at hRange <;> omega
      · cases NumericType <;> simp [ENumericType.InRange] at hRange hBig <;> omega
  rw [hValue]

/-- C16, amended, at concrete inputs: an `int32` field storing -5 exports -5, and a
`uint64` field storing `2 ^ 63` exports `2 ^ 63 - 2 ^ 64`. -/
theorem C16_integer_cell_value_witness :
    CellEvents Example.MixedRow Example.ScoreProperty
      = [FJsonEvent.ObjectStart, FJsonEvent.Value "columnId" (FJsonWritten.String "Score"),
         FJsonEvent.Value "value" (FJsonWritten.Integer (-5)), FJsonEvent.ObjectEnd]
    ∧ CellEvents (Example.ScoreRow (2 ^ 63)) Example.BigProperty
      = [FJsonEvent.ObjectStart, FJsonEvent.Value "columnId" (FJsonWritten.String "Big"),
         FJsonEvent.Value "value" (FJsonWritten.Integer (2 ^ 63 - 2 ^ 64)),
         FJsonEvent.ObjectEnd] :=
  ⟨C16_integer_cell_value Example.MixedRow Example.ScoreProperty ENumericType.Int32
      rfl rfl rfl (by decide),
    C16_integer_cell_value (Example.ScoreRow (2 ^ 63)) Example.BigProperty
      ENumericType.UInt64 rfl rfl rfl (by decide)⟩

/-! ## Claims on the window and the result of the table converter -/

/-- Inside the table and without wrap-around the call writes the records of the keys
from `StartIndex` on, `min MaxSize (rowCount - StartIndex)` of them. -/
theorem ConvertToJsonTable_no_wrap (GridlyDataTable : UGridlyDataTable)
    (RowStruct : List FProperty) (StartIndex MaxSize : Nat)
    (hStruct : GridlyDataTable.RowStruct = some RowStruct)
    (hStart : StartIndex < GridlyDataTable.RowMap.length)
    (hSum : StartIndex + MaxSize < 2 ^ SIZE_T_BITS) :
    FGridlyExporter.ConvertToJsonTable GridlyDataTable StartIndex MaxSize
      = some
          { bSuccess := true,
            Output := [FJsonEvent.ArrayStart none]
              ++ (((GridlyDataTable.RowMap.map Prod.fst).drop StartIndex).take
                    (min MaxSize (GridlyDataTable.RowMap.length - StartIndex))).flatMap
                  (RecordOf RowStruct GridlyDataTable.RowMap)
              ++ [FJsonEvent.ArrayEnd] } := by
  rw [ConvertToJsonTable_inside GridlyDataTable RowStruct StartIndex MaxSize hStruct hStart,
    Nat.mod_eq_of_lt hSum]
  have hWindow : min (StartIndex + MaxSize) GridlyDataTable.RowMap.length - StartIndex
      = min MaxSize (GridlyDataTable.RowMap.length - StartIndex) := by omega
  rw [hWindow]

/-- The number of records in an array of the records of a window of keys. -/
theorem CountRecords_document (RowStruct : List FProperty)
    (RowMap : List (FName × FRowData)) (StartIndex Count : Nat) :
    CountRecords ([FJsonEvent.ArrayStart none]
        ++ (((RowMap.map Prod.fst).drop StartIndex).take Count).flatMap
            (RecordOf RowStruct RowMap)
        ++ [FJsonEvent.ArrayEnd]) 0
      = min Count (RowMap.length - StartIndex) := by
  have hKeys : ∀ RowName ∈ ((RowMap.map Prod.fst).drop StartIndex).take Count,
      RowName ∈ RowMap.map Prod.fst := fun RowName h =>
    List.mem_of_mem_drop (List.mem_of_mem_take h)
  show CountRecords ((((RowMap.map Prod.fst).drop StartIndex).take Count).flatMap
      (RecordOf RowStruct RowMap) ++ [FJsonEvent.ArrayEnd]) 1 = _
  rw [CountRecords_window RowStruct RowMap _ _ hKeys]
  simp [CountRecords, List.length_take, List.length_drop]

/-- C17: the sum `StartIndex + MaxSize` is taken modulo `2 ^ 64` before the minimum
with the row count. On the ten-row table, `StartIndex = 1` and `MaxSize = 2 ^ 64 - 1`
give the wrapped end 0, and the call succeeds with no record; whenever the wrapped end
is at or below a `StartIndex` inside the table the call succeeds with no record. When
`StartIndex + MaxSize < 2 ^ 64` and `StartIndex` is inside the table, the call succeeds
and writes the records of the keys from `StartIndex` on, exactly
`min MaxSize (rowCount - StartIndex)` of them. -/
theorem C17_window_arithmetic :
    (0 < 1 ∧ 1 < Example.TenRowTable.RowMap.length
      ∧ 0 < 2 ^ 64 - 1 ∧ 2 ^ 64 - 1 < 2 ^ SIZE_T_BITS
      ∧ (1 + (2 ^ 64 - 1)) % 2 ^ SIZE_T_BITS = 0
      ∧ FGridlyExporter.ConvertToJsonTable Example.TenRowTable 1 (2 ^ 64 - 1)
        = some { bSuccess := true,
                 Output := [FJsonEvent.ArrayStart none, FJsonEvent.ArrayEnd] }
      ∧ CountRecords [FJsonEvent.ArrayStart none, FJsonEvent.ArrayEnd] 0 = 0)
    ∧ (∀ (GridlyDataTable : UGridlyDataTable) (RowStruct : List FProperty)
        (StartIndex MaxSize : Nat),
        GridlyDataTable.RowStruct = some RowStruct →
        StartIndex < GridlyDataTable.RowMap.length →
        (StartIndex + MaxSize) % 2 ^ SIZE_T_BITS ≤ StartIndex →
        FGridlyExporter.ConvertToJsonTable GridlyDataTable StartIndex MaxSize
          = some { bSuccess := true,
                   Output := [FJsonEvent.ArrayStart none, FJsonEvent.ArrayEnd] })
    ∧ (∀ (GridlyDataTable : UGridlyDataTable) (RowStruct : List FProperty)
        (StartIndex MaxSize : Nat),
        GridlyDataTable.RowStruct = some RowStruct →
        StartIndex < GridlyDataTable.RowMap.length →
        StartIndex + MaxSize < 2 ^ SIZE_T_BITS →
        ∃ Result, FGridlyExporter.ConvertToJsonTable GridlyDataTable StartIndex MaxSize
            = some Result
          ∧ Result.bSuccess = true
          ∧ Result.Output = [FJsonEvent.ArrayStart none]
              ++ (((GridlyDataTable.RowMap.map Prod.fst).drop StartIndex).take
                    (min MaxSize (GridlyDataTable.RowMap.length - StartIndex))).flatMap
                  (RecordOf RowStruct GridlyDataTable.RowMap)
              ++ [FJsonEvent.ArrayEnd]
          ∧ CountRecords Result.Output 0
              = min MaxSize (GridlyDataTable.RowMap.length - StartIndex)) := by
  refine ⟨by decide, ?_, ?_⟩
  · intro GridlyDataTable RowStruct StartIndex MaxSize hStruct hStart hWrap
    rw [ConvertToJsonTable_inside GridlyDataTable RowStruct StartIndex MaxSize hStruct hStart]
    have hZero : min ((StartIndex + MaxSize) % 2 ^ SIZE_T_BITS)
        GridlyDataTable.RowMap.length - StartIndex = 0 := by omega
    rw [hZero]
    rfl
  · intro GridlyDataTable RowStruct StartIndex MaxSize hStruct hStart hSum
    refine ⟨_, ConvertToJsonTable_no_wrap GridlyDataTable RowStruct StartIndex MaxSize
      hStruct hStart hSum, rfl, rfl, ?_⟩
    rw [CountRecords_document]
    omega

/-- C17 at concrete inputs: on the ten-row table the window `(5, 3)` holds 3 records
and the window `(8, 5)` holds 2. -/
theorem C17_window_arithmetic_witness :
    (∃ Result, FGridlyExporter.ConvertToJsonTable Example.TenRowTable 5 3 = some Result
      ∧ Result.bSuccess = true ∧ CountRecords Result.Output 0 = 3)
    ∧ (∃ Result, FGridlyExporter.ConvertToJsonTable Example.TenRowTable 8 5 = some Result
      ∧ Result.bSuccess = true ∧ CountRecords Result.Output 0 = 2) :=
  ⟨(C17_window_arithmetic.2.2 Example.TenRowTable Example.ScoreStruct 5 3 rfl
      (by decide) (by decide)).imp fun _ h => ⟨h.1, h.2.1, h.2.2.2⟩,
    (C17_window_arithmetic.2.2 Example.TenRowTable Example.ScoreStruct 8 5 rfl
      (by decide) (by decide)).imp fun _ h => ⟨h.1, h.2.1, h.2.2.2⟩⟩

/-- C18: the call always ends. It returns true if and only if the table has a row type
and `StartIndex` is below the row count (the writer then closes successfully). Without
a row type nothing is written; with a row type and `StartIndex` at or past the row
count only the array start is written, the array is not closed, and the call returns
false. -/
theorem C18_result (GridlyDataTable : UGridlyDataTable) (StartIndex MaxSize : Nat) :
    ∃ Result, FGridlyExporter.ConvertToJsonTable GridlyDataTable StartIndex MaxSize
        = some Result
      ∧ (Result.bSuccess = true ↔
          (GridlyDataTable.RowStruct ≠ none
            ∧ StartIndex < GridlyDataTable.RowMap.length))
      ∧ (GridlyDataTable.RowStruct = none → Result.Output = [])
      ∧ (GridlyDataTable.RowStruct ≠ none →
          GridlyDataTable.RowMap.length ≤ StartIndex →
          Result.Output = [FJsonEvent.ArrayStart none]
            ∧ FJsonEvent.ArrayEnd ∉ Result.Output
            ∧ Result.bSuccess = false) := by
  cases hStruct : GridlyDataTable.RowStruct with
  | none =>
    exact ⟨{ bSuccess := false, Output := [] },
      by simp [FGridlyExporter.ConvertToJsonTable, hStruct], by simp, by simp, by simp⟩
  | some RowStruct =>
    by_cases hStart : StartIndex < GridlyDataTable.RowMap.length
    · refine ⟨_, ConvertToJsonTable_inside GridlyDataTable RowStruct StartIndex MaxSize
        hStruct hStart, ?_, ?_, ?_⟩
      · simp [hStart]
      · simp
      · intro _ hPast
        omega
    · refine ⟨_, ConvertToJsonTable_outside GridlyDataTable RowStruct StartIndex MaxSize
        hStruct (by omega), ?_, ?_, ?_⟩
      · simp [hStart]
      · simp
      · intro _ _
        simp

/-! ## Claims on the two probes and on the origin of the path -/

/-- A source location that the case-sensitive replacement changes contains
`" - line "`. -/
theorem infix_of_Replace_ne (SourceLocation : String)
    (hChanged : FString.Replace SourceLocation " - line " ":" ESearchCase.CaseSensitive
      ≠ SourceLocation) :
    " - line ".data <:+: SourceLocation.data := by
  by_contra hNo
  apply hChanged
  show String.mk (FString.ReplaceGo ESearchCase.CaseSensitive " - line ".data ":".data 0
    SourceLocation.data) = SourceLocation
  rw [ReplaceGo_no_occurrence _ _ _ hNo]

/-- A source location that the case-sensitive replacement changes passes the probe for
`- line`. -/
theorem DerivePath_of_Replace_ne (SourceLocation : String)
    (hChanged : FString.Replace SourceLocation " - line " ":" ESearchCase.CaseSensitive
      ≠ SourceLocation) :
    DerivePath SourceLocation = "Code" := by
  have hLong := infix_of_Replace_ne SourceLocation hChanged
  have hShort : "- line".data <:+: " - line ".data := ⟨[' '], [' '], rfl⟩
  have hMap := List.IsInfix.map Char.toLower (hShort.trans hLong)
  have hLower : "- line".data.map Char.toLower = "- line".data := by decide
  rw [hLower] at hMap
  have hFind := (Find_line_iff SourceLocation).mpr hMap
  unfold DerivePath
  simp only [hFind, if_true]
  rfl

/-- The path the source location section gives. -/
theorem SourceLocationPath_eq (GameSettings : UGridlyGameSettings)
    (ItemContext : Option FManifestContext) :
    SourceLocationPath GameSettings ItemContext
      = match TMap.Find GameSettings.MetadataMapping "SourceLocation", ItemContext with
        | some _, some Context =>
          if bUsePathAsNamespace GameSettings = false
              ∧ GameSettings.bExportTextTypeAsPath = true
          then some (DerivePath Context.SourceLocation) else none
        | _, _ => none := by
  unfold SourceLocationPath
  rw [AddSourceLocation_Row]
  cases TMap.Find GameSettings.MetadataMapping "SourceLocation" <;> cases ItemContext <;>
    try rfl
  simp only
  split_ifs
  · exact GetStringField_SetStringField_self _ _ _
  · rfl

/-- C19: the replacement of `" - line "` respects the case of the letters and the probe
for `- line` ignores it. For the source location `Foo.cpp - LINE 3`, with a
`SourceLocation` column and path derivation on, the case-sensitive search finds nothing
and the replacement leaves the text as it is, the probe finds `- line` at index 8, and
the record has the path `Code` with the source location cell `Foo.cpp - LINE 3`. For
every entry with a context and a `SourceLocation` column, outside path mode and with
`bExportTextTypeAsPath` set, a source location that the replacement changes gives the
path `Code`. -/
theorem C19_probe_case_rules :
    (FString.Find "Foo.cpp - LINE 3" "- line" ESearchCase.CaseSensitive = INDEX_NONE
      ∧ FString.Find "Foo.cpp - LINE 3" "- line" ESearchCase.IgnoreCase = 8
      ∧ FString.Replace "Foo.cpp - LINE 3" " - line " ":" ESearchCase.CaseSensitive
        = "Foo.cpp - LINE 3"
      ∧ ConvertEntry (Example.Settings true false "" true) Example.NoCultures
          Example.AtoiZero false (some (Example.Helper "Foo.cpp - LINE 3")) Example.Greeting
        = [("id", FJsonValue.String "Menu,Greeting"), ("path", FJsonValue.String "Code"),
           ("cells", FJsonValue.Array
              [MakeCell "source_location" (FJsonScalar.String "Foo.cpp - LINE 3")])])
    ∧ (∀ (GameSettings : UGridlyGameSettings) (CultureConverter : FGridlyCultureConverter)
        (Atoi : String → Int) (bIncludeTargetTranslations : Bool)
        (LocTextHelperPtr : Option FLocTextHelper) (Data : FPolyglotTextData)
        (Context : FManifestContext) (GridlyColumnId : FGridlyColumnInfo),
        FindItemContext LocTextHelperPtr Data.Namespace Data.Key = some Context →
        TMap.Find GameSettings.MetadataMapping "SourceLocation" = some GridlyColumnId →
        FString.Equals GameSettings.NamespaceColumnId "path" = false →
        GameSettings.bExportTextTypeAsPath = true →
        FString.Replace Context.SourceLocation " - line " ":" ESearchCase.CaseSensitive
          ≠ Context.SourceLocation →
        GetStringField (ConvertEntry GameSettings CultureConverter Atoi
          bIncludeTargetTranslations LocTextHelperPtr Data) "path" = some "Code") := by
  refine ⟨by decide, ?_⟩
  intro GameSettings CultureConverter Atoi bIncludeTargetTranslations LocTextHelperPtr Data
    Context GridlyColumnId hContext hColumn hNotPath hTextType hChanged
  have hU : bUsePathAsNamespace GameSettings = false := hNotPath
  rw [GetStringField_path_ConvertEntry, hContext, hColumn]
  simp [hU, hTextType, DerivePath_of_Replace_ne _ hChanged]

/-- C19 at a concrete input: the replacement changes `MyFile.cpp - line 42`, and the
record's path is `Code`. -/
theorem C19_probe_case_rules_witness :
    FString.Replace "MyFile.cpp - line 42" " - line " ":" ESearchCase.CaseSensitive
      ≠ "MyFile.cpp - line 42"
    ∧ GetStringField (ConvertEntry (Example.Settings false false "Namespace" true)
        Example.Cultures Example.AtoiZero false
        (some (Example.Helper "MyFile.cpp - line 42")) Example.Greeting) "path"
      = some "Code" :=
  ⟨by decide,
    C19_probe_case_rules.2 (Example.Settings false false "Namespace" true)
      Example.Cultures Example.AtoiZero false
      (some (Example.Helper "MyFile.cpp - line 42")) Example.Greeting
      { Key := "Greeting", SourceLocation := "MyFile.cpp - line 42",
        InfoMetadataObj := none }
      { Name := "source_location", DataType := EGridlyColumnDataType.String }
      rfl rfl (by decide) rfl (by decide)⟩

/-- C20: the path of a record has at most one origin. The namespace section sets it,
to the entry's namespace, exactly in path mode with the namespace exported; the source
location section sets it, to the derived path, exactly outside path mode with
`bExportTextTypeAsPath` set, a context for the entry and a `SourceLocation` column; the
two never both set it, the record's path is the one that was set, and the record has
no path when neither was. Without a `SourceLocation` column no path is derived. -/
theorem C20_path_origin (GameSettings : UGridlyGameSettings)
    (CultureConverter : FGridlyCultureConverter) (Atoi : String → Int)
    (bIncludeTargetTranslations : Bool) (LocTextHelperPtr : Option FLocTextHelper)
    (Data : FPolyglotTextData) :
    NamespacePath GameSettings Data.Namespace
      = (if bUsePathAsNamespace GameSettings = true ∧ bExportNamespace GameSettings = true
          then some Data.Namespace else none)
    ∧ SourceLocationPath GameSettings
          (FindItemContext LocTextHelperPtr Data.Namespace Data.Key)
      = (match TMap.Find GameSettings.MetadataMapping "SourceLocation",
            FindItemContext LocTextHelperPtr Data.Namespace Data.Key with
          | some _, some Context =>
            if bUsePathAsNamespace GameSettings = false
                ∧ GameSettings.bExportTextTypeAsPath = true
            then some (DerivePath Context.SourceLocation) else none
          | _, _ => none)
    ∧ (NamespacePath GameSettings Data.Namespace = none
        ∨ SourceLocationPath GameSettings
            (FindItemContext LocTextHelperPtr Data.Namespace Data.Key) = none)
    ∧ GetStringField (ConvertEntry GameSettings CultureConverter Atoi
          bIncludeTargetTranslations LocTextHelperPtr Data) "path"
      = (match NamespacePath GameSettings Data.Namespace with
          | some Path => some Path
          | none => SourceLocationPath GameSettings
              (FindItemContext LocTextHelperPtr Data.Namespace Data.Key))
    ∧ (TMap.Find GameSettings.MetadataMapping "SourceLocation" = none →
        SourceLocationPath GameSettings
            (FindItemContext LocTextHelperPtr Data.Namespace Data.Key) = none
        ∧ GetStringField (ConvertEntry GameSettings CultureConverter Atoi
            bIncludeTargetTranslations LocTextHelperPtr Data) "path"
          = NamespacePath GameSettings Data.Namespace) := by
  have hNs : NamespacePath GameSettings Data.Namespace
      = (if bUsePathAsNamespace GameSettings = true ∧ bExportNamespace GameSettings = true
          then some Data.Namespace else none) := by
    rw [NamespacePath_eq]
    cases bUsePathAsNamespace GameSettings <;> cases bExportNamespace GameSettings <;> simp
  refine ⟨hNs, SourceLocationPath_eq _ _, ?_, ?_, ?_⟩
  · rw [hNs, SourceLocationPath_eq]
    cases hU : bUsePathAsNamespace GameSettings
    · simp
    · right
      cases TMap.Find GameSettings.MetadataMapping "SourceLocation" <;>
        cases FindItemContext LocTextHelperPtr Data.Namespace Data.Key <;> simp
  · rw [GetStringField_path_ConvertEntry, hNs, SourceLocationPath_eq]
    cases hU : bUsePathAsNamespace GameSettings <;>
      cases hE : bExportNamespace GameSettings <;>
      cases TMap.Find GameSettings.MetadataMapping "SourceLocation" <;>
      cases FindItemContext LocTextHelperPtr Data.Namespace Data.Key <;> simp
  · intro hNoColumn
    have hNone : SourceLocationPath GameSettings
        (FindItemContext LocTextHelperPtr Data.Namespace Data.Key) = none := by
      rw [SourceLocationPath_eq, hNoColumn]
    refine ⟨hNone, ?_⟩
    rw [GetStringField_path_ConvertEntry, hNs, hNoColumn]
    cases hU : bUsePathAsNamespace GameSettings <;>
      cases hE : bExportNamespace GameSettings <;> simp

end Gridly
